import Mathlib

/-!
# Verification of the Geospatial Suitability & Competitive-Analysis Engine

A shallow embedding, over `ℚ`, of the scoring engine implemented in
`backend/app/services/location_recommender.py`,
`backend/app/services/area_business_analyzer.py` and the caching decorator of
`backend/app/api/routes.py`.  Python floats are modelled as exact rationals;
The Python builtin `round(x, n)` (round half to even) is modelled by `roundTo`; the
PostGIS database and the external isochrone provider are modelled as abstract
environment functions, since their contents are not code of this repository.
The stable Python `list.sort` is modelled by the stable insertion sort
`sortDescBy`.  The pandas `sort_values` call on the area dataframe uses the
default kind, quicksort, which the pandas documentation does NOT specify to
be stable; it is therefore a library function passed in as a parameter,
constrained only by its documented contract `IsPandasSortDesc` (a descending
permutation; the relative order of equal keys is unspecified).
-/

namespace Atlas

/-- The Python builtin `round(q, d)`: round to `d` decimal digits, ties to even.
`⌊q⌋` is the floor; the three branches are fractional part `< 1/2`,
`> 1/2`, and the exact tie (to the even integer). -/
def roundHalfEven (q : ℚ) : ℤ :=
  if 2 * q < 2 * ⌊q⌋ + 1 then ⌊q⌋
  else if 2 * (⌊q⌋ : ℚ) + 1 < 2 * q then ⌊q⌋ + 1
  else if Even ⌊q⌋ then ⌊q⌋ else ⌊q⌋ + 1

/-- Rounding `round(q, d)` for `d` decimal digits. -/
def roundTo (d : ℕ) (q : ℚ) : ℚ := (roundHalfEven (q * 10 ^ d) : ℚ) / 10 ^ d

/-! ## Stable descending sort

The Python `list.sort(key=…, reverse=True)`, which the language reference
guarantees to be stable: descending on the key, elements with equal keys keep
their original relative order.  (Used for the final composite sort and the
gap sort; NOT for the pandas `sort_values`, which has no stability guarantee
and is abstracted by `IsPandasSortDesc` below.) -/

/-- Insert `x` in front of the first element whose key is `≤ key x`
(so that, among equal keys, the earlier-inserted element stays first). -/
def insertDesc (key : α → ℚ) (x : α) : List α → List α
  | [] => [x]
  | y :: ys => if key y ≤ key x then x :: y :: ys else y :: insertDesc key x ys

/-- Stable insertion sort, descending by `key`. -/
def sortDescBy (key : α → ℚ) : List α → List α
  | [] => []
  | x :: xs => insertDesc key x (sortDescBy key xs)

/-! ## Criteria and the hardcoded weight tables

`location_recommender.py` scores areas on 10 named criteria
(the `Score_*` columns of the reference CSV).  `WEIGHTS` is the hardcoded
per-super-category weight table; `VALID_SUPER_CATEGORIES = list(WEIGHTS.keys())`. -/

inductive Criterion
  | popDensity    -- Score_Population_Density
  | footfall      -- Score_Footfall
  | transit       -- Score_Transit
  | traffic       -- Score_Traffic
  | rentValue     -- Score_Rent_Value
  | parking       -- Score_Parking
  | nightActivity -- Score_Night_Activity
  | walkability   -- Score_Walkability
  | poiSynergy    -- Score_POI_Synergy
  | safety        -- Score_Safety
deriving DecidableEq, Fintype, Repr

/-- The criteria in the column order of the weight dictionaries. -/
def Criterion.all : List Criterion :=
  [.popDensity, .footfall, .transit, .traffic, .rentValue,
   .parking, .nightActivity, .walkability, .poiSynergy, .safety]

def accommodationWeights : Criterion → ℚ
  | .popDensity => 15 | .footfall => 20 | .transit => 12 | .traffic => 5
  | .rentValue => 8 | .parking => 8 | .nightActivity => 5 | .walkability => 8
  | .poiSynergy => 8 | .safety => 6

def educationWeights : Criterion → ℚ
  | .popDensity => 28 | .footfall => 10 | .transit => 12 | .traffic => 8
  | .rentValue => 8 | .parking => 15 | .nightActivity => 0 | .walkability => 5
  | .poiSynergy => 5 | .safety => 5

def entertainmentWeights : Criterion → ℚ
  | .popDensity => 20 | .footfall => 25 | .transit => 10 | .traffic => 5
  | .rentValue => 3 | .parking => 8 | .nightActivity => 15 | .walkability => 8
  | .poiSynergy => 2 | .safety => 1

def financialWeights : Criterion → ℚ
  | .popDensity => 20 | .footfall => 5 | .transit => 12 | .traffic => 8
  | .rentValue => 15 | .parking => 8 | .nightActivity => 0 | .walkability => 8
  | .poiSynergy => 12 | .safety => 4

def fitnessWeights : Criterion → ℚ
  | .popDensity => 25 | .footfall => 20 | .transit => 8 | .traffic => 3
  | .rentValue => 5 | .parking => 10 | .nightActivity => 8 | .walkability => 10
  | .poiSynergy => 5 | .safety => 3

def foodWeights : Criterion → ℚ
  | .popDensity => 20 | .footfall => 30 | .transit => 5 | .traffic => 3
  | .rentValue => 3 | .parking => 5 | .nightActivity => 15 | .walkability => 12
  | .poiSynergy => 3 | .safety => 2

def governmentWeights : Criterion → ℚ
  | .popDensity => 25 | .footfall => 10 | .transit => 15 | .traffic => 8
  | .rentValue => 3 | .parking => 12 | .nightActivity => 0 | .walkability => 5
  | .poiSynergy => 8 | .safety => 2

def healthWeights : Criterion → ℚ
  | .popDensity => 30 | .footfall => 15 | .transit => 10 | .traffic => 3
  | .rentValue => 5 | .parking => 12 | .nightActivity => 0 | .walkability => 8
  | .poiSynergy => 7 | .safety => 5

/-- The designated fallback vector: every weight is 9.09. -/
def otherMiscWeights : Criterion → ℚ := fun _ => 909 / 100

def parksWeights : Criterion → ℚ
  | .popDensity => 25 | .footfall => 20 | .transit => 12 | .traffic => 3
  | .rentValue => 5 | .parking => 10 | .nightActivity => 2 | .walkability => 12
  | .poiSynergy => 5 | .safety => 6

def religiousWeights : Criterion → ℚ
  | .popDensity => 28 | .footfall => 15 | .transit => 10 | .traffic => 3
  | .rentValue => 3 | .parking => 8 | .nightActivity => 5 | .walkability => 8
  | .poiSynergy => 5 | .safety => 5

def shoppingWeights : Criterion → ℚ
  | .popDensity => 25 | .footfall => 25 | .transit => 8 | .traffic => 5
  | .rentValue => 5 | .parking => 10 | .nightActivity => 5 | .walkability => 10
  | .poiSynergy => 2 | .safety => 2

def transportWeights : Criterion → ℚ
  | .popDensity => 15 | .footfall => 10 | .transit => 15 | .traffic => 25
  | .rentValue => 5 | .parking => 10 | .nightActivity => 3 | .walkability => 5
  | .poiSynergy => 5 | .safety => 2

/-- The `WEIGHTS` dictionary, in its insertion order. -/
def WEIGHTS : List (String × (Criterion → ℚ)) :=
  [("Accommodation & Lodging", accommodationWeights),
   ("Education & Training", educationWeights),
   ("Entertainment & Leisure", entertainmentWeights),
   ("Financial & Legal Services", financialWeights),
   ("Fitness & Wellness", fitnessWeights),
   ("Food & Beverages", foodWeights),
   ("Government & Public Services", governmentWeights),
   ("Health & Medical", healthWeights),
   ("Other / Misc", otherMiscWeights),
   ("Parks & Outdoor Recreation", parksWeights),
   ("Religious & Spiritual Places", religiousWeights),
   ("Shopping & Retail", shoppingWeights),
   ("Transport & Auto Services", transportWeights)]

/-- Models `VALID_SUPER_CATEGORIES = list(WEIGHTS.keys())`. -/
def VALID_SUPER_CATEGORIES : List String := WEIGHTS.map Prod.fst

/-- Models `WEIGHTS.get(super_category, WEIGHTS["Other / Misc"])`. -/
def weightsFor (super_category : String) : Criterion → ℚ :=
  match WEIGHTS.find? (fun p => p.1 == super_category) with
  | some p => p.2
  | none => otherMiscWeights

/-- Table `COMPLEMENTARY_CATEGORIES` of `location_recommender.py`. -/
def COMPLEMENTARY_CATEGORIES : List (String × List String) :=
  [("Food & Beverages", ["Shopping & Retail", "Entertainment & Leisure", "Parks & Outdoor Recreation", "Transport & Auto Services", "Fitness & Wellness"]),
   ("Fitness & Wellness", ["Food & Beverages", "Health & Medical", "Parks & Outdoor Recreation", "Shopping & Retail", "Accommodation & Lodging"]),
   ("Health & Medical", ["Fitness & Wellness", "Food & Beverages", "Shopping & Retail", "Transport & Auto Services", "Accommodation & Lodging"]),
   ("Shopping & Retail", ["Food & Beverages", "Entertainment & Leisure", "Transport & Auto Services", "Fitness & Wellness", "Accommodation & Lodging"]),
   ("Entertainment & Leisure", ["Food & Beverages", "Shopping & Retail", "Transport & Auto Services", "Accommodation & Lodging", "Parks & Outdoor Recreation"]),
   ("Education & Training", ["Food & Beverages", "Shopping & Retail", "Transport & Auto Services", "Accommodation & Lodging", "Parks & Outdoor Recreation"]),
   ("Accommodation & Lodging", ["Food & Beverages", "Entertainment & Leisure", "Shopping & Retail", "Transport & Auto Services", "Parks & Outdoor Recreation"]),
   ("Transport & Auto Services", ["Food & Beverages", "Shopping & Retail", "Accommodation & Lodging", "Entertainment & Leisure", "Financial & Legal Services"]),
   ("Financial & Legal Services", ["Shopping & Retail", "Food & Beverages", "Government & Public Services", "Transport & Auto Services", "Accommodation & Lodging"]),
   ("Government & Public Services", ["Financial & Legal Services", "Food & Beverages", "Transport & Auto Services", "Shopping & Retail", "Parks & Outdoor Recreation"]),
   ("Parks & Outdoor Recreation", ["Food & Beverages", "Fitness & Wellness", "Entertainment & Leisure", "Shopping & Retail", "Accommodation & Lodging"]),
   ("Religious & Spiritual Places", ["Food & Beverages", "Shopping & Retail", "Parks & Outdoor Recreation", "Transport & Auto Services", "Accommodation & Lodging"]),
   ("Other / Misc", ["Food & Beverages", "Shopping & Retail", "Transport & Auto Services"])]

/-- Models `COMPLEMENTARY_CATEGORIES.get(super_category, [])`. -/
def complementaryFor (super_category : String) : List String :=
  match COMPLEMENTARY_CATEGORIES.find? (fun p => p.1 == super_category) with
  | some p => p.2
  | none => []

/-! ## Area rows and `calculate_area_scores` -/

/-- One row of the `Delhi_Areas_All_11_Criteria_Real_Data.csv` dataframe:
an area name plus the `Score_*` columns.  A column may be absent
(`if feature in row` in the source), hence `Option`. -/
structure AreaRow where
  name : String
  scores : Criterion → Option ℚ

/-- The inner loop of `calculate_area_scores`:
`score += row[feature] * weight / 100` over the weight dictionary,
skipping features absent from the row. -/
def weightedSum (w : Criterion → ℚ) (row : AreaRow) : ℚ :=
  (Criterion.all.map (fun c =>
    match row.scores c with
    | some v => v * w c / 100
    | none => 0)).sum

/-- Documented contract of the pandas `sort_values(…, ascending=False)` call:
the result is a permutation of the input, ordered descending on the score.
The relative order of rows with equal scores is NOT part of the contract —
the default sort kind, quicksort, is not stable — so the library sort enters
the model only as a function assumed to satisfy this predicate. -/
def IsPandasSortDesc (pandas_sort : List (String × ℚ) → List (String × ℚ)) : Prop :=
  ∀ l, (pandas_sort l).Perm l ∧ (pandas_sort l).Pairwise (fun a b => b.2 ≤ a.2)

/-- Models `LocationRecommender.calculate_area_scores`: per-area weighted score
(rounded to 2 decimals), sorted descending by the pandas library sort
(`pandas_sort`, a parameter like the other library/database functions),
top 10.  `none` models `self.areas_df is None` (missing CSV), which yields an
empty dataframe. -/
def calculate_area_scores (pandas_sort : List (String × ℚ) → List (String × ℚ))
    (areas_df : Option (List AreaRow)) (super_category : String) :
    List (String × ℚ) :=
  match areas_df with
  | none => []
  | some rows =>
    let weights := weightsFor super_category
    let scores := rows.map (fun row => (row.name, roundTo 2 (weightedSum weights row)))
    (pandas_sort scores).take 10

/-! ## `normalize_score` -/

/-- Python `min(list)` (only ever applied to a non-empty list). -/
def listMin : List ℚ → ℚ
  | [] => 0
  | x :: xs => xs.foldl min x

/-- Python `max(list)` (only ever applied to a non-empty list). -/
def listMax : List ℚ → ℚ
  | [] => 0
  | x :: xs => xs.foldl max x

/-- Models `LocationRecommender.normalize_score`: min–max normalization to 0–100,
inverted when `inverse` (lower raw value = better); 50.0 for an empty
value list or when `max == min`. -/
def normalize_score (value : ℚ) (all_values : List ℚ) (inverse : Bool) : ℚ :=
  if all_values = [] then 50
  else if listMax all_values = listMin all_values then 50
  else if inverse then
    (listMax all_values - value) / (listMax all_values - listMin all_values) * 100
  else
    (value - listMin all_values) / (listMax all_values - listMin all_values) * 100

/-! ## `find_best_locations`

The PostGIS tables (`area_with_centroid`, `points_super`) and the external
isochrone provider are not code of this repository; they enter the model as
an abstract environment `RecEnv`.  `P` is the (opaque) polygon type returned
by the provider. -/

/-- A row of `area_with_centroid` as returned by `get_area_centroids`. -/
structure CentroidRow where
  name : String
  lon : ℚ
  lat : ℚ
deriving DecidableEq, Repr

structure RecEnv (P : Type) where
  /-- Field `self.areas_df` — `none` when the CSV was not found. -/
  areas_df : Option (List AreaRow)
  /-- Library call `sort_values(…, ascending=False)` used by
  `calculate_area_scores` — a pandas function, so a parameter of the model,
  assumed to satisfy only its documented contract `IsPandasSortDesc`. -/
  pandasSort : List (String × ℚ) → List (String × ℚ)
  /-- the `area_with_centroid` table, in query-result order. -/
  centroidRows : List CentroidRow
  /-- Provider call `get_isochrone_polygon` — `none` on any provider failure
  (error, timeout, missing polygon: the function catches every exception). -/
  isochrone : ℚ → ℚ → ℚ → Option P
  /-- Query `count_pois_in_polygon` — (competitor_count, complementary_count). -/
  countInPolygon : P → String → List String → ℕ × ℕ
  /-- Query `_simple_radius_count lat lon radius_km cat comps` — the radius fallback. -/
  radiusCount : ℚ → ℚ → ℚ → String → List String → ℕ × ℕ

/-- Models `get_area_centroids`: `SELECT … WHERE name IN (area_names)`. -/
def get_area_centroids (env : RecEnv P) (area_names : List String) : List CentroidRow :=
  env.centroidRows.filter (fun c => area_names.contains c.name)

/-- Models the centroid_map dict comprehension followed by centroid_map.get:
for duplicate names a Python dict keeps the last entry. -/
def lookupCentroid (centroids : List CentroidRow) (name : String) : Option CentroidRow :=
  centroids.reverse.find? (fun c => c.name == name)

/-- One entry of `results` after step 4 of `find_best_locations`. -/
structure RawCandidate where
  area : String
  area_score : ℚ
  lat : ℚ
  lon : ℚ
  competitors : ℕ
  complementary : ℕ
deriving DecidableEq, Repr

/-- A `results` entry after steps 5–6 added the normalized and composite scores. -/
structure ScoredCandidate extends RawCandidate where
  opportunity_score : ℚ
  ecosystem_score : ℚ
  composite_score : ℚ
deriving DecidableEq, Repr

/-- Steps 1–4 of `find_best_locations`: the top-10 areas that have a centroid
row, with their POI counts (polygon counts when the provider returned a
polygon, `_simple_radius_count` otherwise).  An area without a centroid is
skipped (`if not centroid: continue`). -/
def surviving (env : RecEnv P) (super_category : String)
    (isochrone_distance_km : ℚ) : List RawCandidate :=
  let top10 := calculate_area_scores env.pandasSort env.areas_df super_category
  let centroids := get_area_centroids env (top10.map Prod.fst)
  let complementary_cats := complementaryFor super_category
  top10.filterMap (fun p =>
    match lookupCentroid centroids p.1 with
    | none => none
    | some c =>
      let counts :=
        match env.isochrone c.lat c.lon isochrone_distance_km with
        | some poly => env.countInPolygon poly super_category complementary_cats
        | none => env.radiusCount c.lat c.lon isochrone_distance_km
            super_category complementary_cats
      some ⟨p.1, p.2, c.lat, c.lon, counts.1, counts.2⟩)

/-- Steps 5–6 for one candidate: normalized opportunity / ecosystem scores and
`composite = 0.60·area + 0.20·opportunity + 0.20·ecosystem`, each rounded to
2 decimals. -/
def scoreCandidate (all_competitors all_complementary : List ℚ)
    (r : RawCandidate) : ScoredCandidate :=
  let opportunity := roundTo 2 (normalize_score r.competitors all_competitors true)
  let ecosystem := roundTo 2 (normalize_score r.complementary all_complementary false)
  { r with
    opportunity_score := opportunity
    ecosystem_score := ecosystem
    composite_score :=
      roundTo 2 (r.area_score * 0.60 + opportunity * 0.20 + ecosystem * 0.20) }

/-- The `results` list right before the final sort. -/
def scoredResults (env : RecEnv P) (super_category : String)
    (isochrone_distance_km : ℚ) : List ScoredCandidate :=
  let results := surviving env super_category isochrone_distance_km
  let all_competitors := results.map (fun r => (r.competitors : ℚ))
  let all_complementary := results.map (fun r => (r.complementary : ℚ))
  results.map (scoreCandidate all_competitors all_complementary)

/-- The return value of `find_best_locations` (metadata fields that merely echo
the arguments — `super_category`, `complementary_categories`,
`isochrone_radius_km` — are omitted). -/
inductive RecResult
  /-- Error dict: Invalid super category, empty recommendations. -/
  | invalidCategory
  /-- Error dict: Could not calculate area scores. -/
  | noScores
  /-- Error dict: No areas found. -/
  | noAreas
  /-- Success: `recommendations` (top 3) and `all_top_10`. -/
  | ok (recommendations all_top_10 : List ScoredCandidate)
deriving DecidableEq, Repr

/-- Models `LocationRecommender.find_best_locations`. -/
def find_best_locations (env : RecEnv P) (super_category : String)
    (isochrone_distance_km : ℚ) : RecResult :=
  if ¬ VALID_SUPER_CATEGORIES.contains super_category then .invalidCategory
  else if calculate_area_scores env.pandasSort env.areas_df super_category = [] then .noScores
  else if scoredResults env super_category isochrone_distance_km = [] then .noAreas
  else
    .ok ((sortDescBy ScoredCandidate.composite_score
            (scoredResults env super_category isochrone_distance_km)).take 3)
        (sortDescBy ScoredCandidate.composite_score
          (scoredResults env super_category isochrone_distance_km))

/-- The latitude/longitude deltas and bounding box of `_simple_radius_count`.
`cosAbsLat` stands for the library value `abs(cos(radians(lat)))` (transcendental,
so passed in rather than recomputed):
`lat_delta = radius_km / 111`, `lon_delta = radius_km / (111 * abs(cos(radians(lat))))`. -/
def simple_radius_bounds (lat lon radius_km cosAbsLat : ℚ) : ℚ × ℚ × ℚ × ℚ :=
  let lat_delta := radius_km / 111
  let lon_delta := radius_km / (111 * cosAbsLat)
  (lat - lat_delta, lat + lat_delta, lon - lon_delta, lon + lon_delta)

/-! ## `AreaBusinessAnalyzer.analyze_gaps` -/

/-- Models `dict.get(category, 0)` on a category distribution
(a query result is modelled as an association list). -/
def lookupCount (dist : List (String × ℕ)) (category : String) : ℕ :=
  match dist.find? (fun p => p.1 == category) with
  | some p => p.2
  | none => 0

/-- One entry of the `gaps` list built by `analyze_gaps`. -/
structure GapEntry where
  category : String
  area_count : ℕ
  delhi_average : ℚ
  gap_score : ℚ
  status : String
deriving DecidableEq, Repr

/-- The body of the `analyze_gaps` loop for one `(category, avg_count)` pair
with `avg_count > 0`. -/
def gapEntryFor (category : String) (area_count : ℕ) (avg_count : ℚ) : GapEntry :=
  let ratio := (area_count : ℚ) / avg_count
  let gap_score := max 0 (100 - ratio * 100)
  { category := category
    area_count := area_count
    delhi_average := roundTo 1 avg_count
    gap_score := roundTo 1 gap_score
    status :=
      if ratio < 0.5 then "underserved"
      else if ratio < 1.0 then "moderate"
      else "saturated" }

/-- Models `AreaBusinessAnalyzer.analyze_gaps`: one entry per city-average category
with `avg_count > 0`, sorted by gap score, highest first (the stable Python
`list.sort`). -/
def analyze_gaps (area_distribution : List (String × ℕ))
    (delhi_average : List (String × ℚ)) : List GapEntry :=
  let gaps := delhi_average.filterMap (fun p =>
    if 0 < p.2 then some (gapEntryFor p.1 (lookupCount area_distribution p.1) p.2)
    else none)
  sortDescBy GapEntry.gap_score gaps

/-! ## `AreaBusinessAnalyzer.analyze_area`

Like the recommender, the analyzer reads the PostGIS tables through queries;
those queries are the abstract environment `AnalyzerEnv`.  The success payload
keeps the analytically meaningful fields (resolved area, source, distribution,
total POIs, gap analysis); the prose fields (`message`, business examples,
research annotations, trend indicator) are presentation built from the same
data and are not modelled. -/

/-- A POI-name fallback hit of `find_location_from_pois`
(name.title(), lon, lat of the POI centroid). -/
structure PoiLocation where
  name : String
  lon : ℚ
  lat : ℚ
deriving DecidableEq, Repr

structure AnalyzerEnv where
  /-- exact-name query of `find_area_by_name` (`LOWER(name) = LOWER(%s)`). -/
  exactArea : String → Option String
  /-- substring query of `find_area_by_name`
  (`LIKE %name%`, shortest name first). -/
  fuzzyArea : String → Option String
  /-- Query `find_location_from_pois` — POI-name fallback. -/
  poiSearch : String → Option PoiLocation
  /-- spatial-join query of `get_category_distribution`. -/
  spatialDistribution : String → List (String × ℕ)
  /-- Query `get_area_centroid`. -/
  centroidOf : String → Option CentroidRow
  /-- Query `get_category_distribution_by_radius lat lon radius_km`. -/
  radiusDistribution : ℚ → ℚ → ℚ → List (String × ℕ)
  /-- Query `get_delhi_average_distribution`. -/
  delhiAverage : List (String × ℚ)

/-- Models `AreaBusinessAnalyzer.find_area_by_name`: exact match first, then the
substring match. -/
def find_area_by_name (env : AnalyzerEnv) (area_name : String) : Option String :=
  match env.exactArea area_name with
  | some n => some n
  | none => env.fuzzyArea area_name

/-- Models `AreaBusinessAnalyzer.get_category_distribution`: the spatial join; when
it is empty, fall back to a 1.5 km radius around the area centroid, or `{}`
when there is no centroid either. -/
def get_category_distribution (env : AnalyzerEnv) (area_name : String) :
    List (String × ℕ) :=
  match env.spatialDistribution area_name with
  | [] =>
    (match env.centroidOf area_name with
     | some c => env.radiusDistribution c.lat c.lon 1.5
     | none => [])
  | results => results

/-- The success payload of `analyze_area`. -/
structure AnalyzePayload where
  area : String
  /-- Either `"area"` or `"poi"`. -/
  location_source : String
  distribution : List (String × ℕ)
  total_pois : ℕ
  gap_analysis : List GapEntry
deriving DecidableEq, Repr

/-- The value returned by `analyze_area`. -/
inductive AnalyzeResult
  /-- Models the not-found dict: success False, error "Could not find area or location … in Delhi". -/
  | notFound (area_name : String)
  /-- Models the empty dict: success False, error "No business data found for …". -/
  | emptyResult (actual_area : String)
  /-- Success payload dict. -/
  | ok (payload : AnalyzePayload)
deriving DecidableEq, Repr

/-- Shared tail of `analyze_area`: fail distinctly when the distribution is
empty (`if not area_distribution`), else build the success payload. -/
def analyzeAreaWith (env : AnalyzerEnv) (actual_area location_source : String)
    (area_distribution : List (String × ℕ)) : AnalyzeResult :=
  if area_distribution = [] then .emptyResult actual_area
  else .ok
    { area := actual_area
      location_source := location_source
      distribution := area_distribution
      total_pois := (area_distribution.map Prod.snd).sum
      gap_analysis := (analyze_gaps area_distribution env.delhiAverage).take 5 }

/-- Models `AreaBusinessAnalyzer.analyze_area`: resolve the name as an area
(exact, then substring), else as a POI location (distribution within a 1.0 km
radius of the POI centroid), else report not-found. -/
def analyze_area (env : AnalyzerEnv) (area_name : String) : AnalyzeResult :=
  match find_area_by_name env area_name with
  | some actual =>
    analyzeAreaWith env actual "area" (get_category_distribution env actual)
  | none =>
    match env.poiSearch area_name with
    | some poi =>
      analyzeAreaWith env poi.name "poi"
        (env.radiusDistribution poi.lat poi.lon 1.0)
    | none => .notFound area_name

/-! ## The `cached` decorator of `routes.py` -/

/-- The TTL cache keyed store, modelled as an association list from cache key
to stored value (entry count bounds and time-based expiry are outside a pure
model; neither is touched by the claims). -/
def cacheLookup [DecidableEq κ] (cache : List (κ × β)) (key : κ) : Option β :=
  match cache.find? (fun p => p.1 = key) with
  | some p => some p.2
  | none => none

/-- One call through the `cached(cache_instance)` wrapper.  `f` is the wrapped
function applied to the (already key-hashed) arguments; `Except.error`
models the wrapped function raising.  Returns the outcome of the call and the
cache afterwards: on a hit the stored value, unchanged cache; on a miss the
computed result, stored only if the computation did not raise. -/
def cachedCall [DecidableEq κ] (cache : List (κ × β)) (key : κ)
    (f : Unit → Except ε β) : Except ε β × List (κ × β) :=
  match cacheLookup cache key with
  | some v => (.ok v, cache)
  | none =>
    match f () with
    | .ok v => (.ok v, (key, v) :: cache)
    | .error e => (.error e, cache)

/-! ## Predicates taken from the words of the spec (for refinement checks) -/

/-- Lexicographic (alphabetical) order on character lists. -/
def alphaLeB : List Char → List Char → Bool
  | [], _ => true
  | _ :: _, [] => false
  | a :: as, b :: bs => if a < b then true else if b < a then false else alphaLeB as bs

/-- Alphabetical order on area names, as the spec words "alphabetically by
area name". -/
def alphaLe (a b : String) : Prop := alphaLeB a.data b.data = true

/-- Modelled from the words of the SPEC, for comparison with the
implementation: the candidate ordering claimed by §4.4 — descending
composite_score, ties broken by area_score, then alphabetically by area
name. -/
def specTieOrdered (l : List ScoredCandidate) : Prop :=
  l.Pairwise (fun a b =>
    b.composite_score < a.composite_score ∨
    (b.composite_score = a.composite_score ∧
      (b.area_score < a.area_score ∨
        (b.area_score = a.area_score ∧ alphaLe a.area b.area))))

/-- A present CSV cell lies in the raw 0–100 range (the precondition of the
range invariant). -/
def optInBounds : Option ℚ → Prop
  | none => True
  | some v => 0 ≤ v ∧ v ≤ 100

instance : ∀ o, Decidable (optInBounds o) := fun o => by
  unfold optInBounds
  cases o <;> infer_instance

/-! ## Concrete inputs used by witnesses and counterexamples -/

/-- An area row with every criterion at 50. -/
def rowA : AreaRow := ⟨"A", fun _ => some 50⟩

/-- A second area row, every criterion at 40, with no centroid row below. -/
def rowBeta : AreaRow := ⟨"Beta", fun _ => some 40⟩

/-- Rows named in reverse alphabetical dataset order, identical raw values. -/
def rowZeta : AreaRow := ⟨"Zeta", fun _ => some 50⟩

def rowAlpha : AreaRow := ⟨"Alpha", fun _ => some 50⟩

/-- An area row whose weighted sum is not a multiple of 1/100. -/
def rowTiny : AreaRow :=
  ⟨"A", fun c => match c with
    | .popDensity => some (1 / 100)
    | _ => some 0⟩

/-- Environment: one area with a centroid, failing isochrone provider,
constant radius counts. -/
def envW : RecEnv Unit :=
  { areas_df := some [rowA]
    pandasSort := sortDescBy Prod.snd
    centroidRows := [⟨"A", 77, 28⟩]
    isochrone := fun _ _ _ => none
    countInPolygon := fun _ _ _ => (0, 0)
    radiusCount := fun _ _ _ _ _ => (3, 4) }

/-- The single candidate produced by `envW` for Food & Beverages:
area score 49 = round2(50·98/100), degenerate normalizations 50,
composite 49.4 = round2(49·0.6 + 50·0.2 + 50·0.2). -/
def candW : ScoredCandidate := ⟨⟨"A", 49, 28, 77, 3, 4⟩, 50, 50, 49.4⟩

/-- Environment with two identically scoring areas in reverse alphabetical
dataset order and identical POI counts, so every score ties. -/
def envTie : RecEnv Unit :=
  { areas_df := some [rowZeta, rowAlpha]
    pandasSort := sortDescBy Prod.snd
    centroidRows := [⟨"Zeta", 77, 28⟩, ⟨"Alpha", 77, 28⟩]
    isochrone := fun _ _ _ => none
    countInPolygon := fun _ _ _ => (0, 0)
    radiusCount := fun _ _ _ _ _ => (2, 2) }

/-- The tied candidates of `envTie` under the Other / Misc weights:
area score 45.45 = round2(50·90.9/100), composite 47.27. -/
def cndZeta : ScoredCandidate := ⟨⟨"Zeta", 45.45, 28, 77, 2, 2⟩, 50, 50, 47.27⟩

def cndAlpha : ScoredCandidate := ⟨⟨"Alpha", 45.45, 28, 77, 2, 2⟩, 50, 50, 47.27⟩

/-- Environment where the second top-10 area has no centroid row. -/
def envSkip : RecEnv Unit :=
  { areas_df := some [rowA, rowBeta]
    pandasSort := sortDescBy Prod.snd
    centroidRows := [⟨"A", 77, 28⟩]
    isochrone := fun _ _ _ => none
    countInPolygon := fun _ _ _ => (0, 0)
    radiusCount := fun _ _ _ _ _ => (3, 4) }

/-- An area row whose composite blend lands on three decimals: raw values
46.35 give weighted sum 45.423 (area score 45.42), and
45.42·0.6 + 50·0.2 + 50·0.2 = 47.252 rounds to 47.25. -/
def rowOdd : AreaRow := ⟨"Odd", fun _ => some 46.35⟩

/-- Environment exhibiting composite rounding: one candidate, provider fails,
counts 3 and 4. -/
def envOdd : RecEnv Unit :=
  { areas_df := some [rowOdd]
    pandasSort := sortDescBy Prod.snd
    centroidRows := [⟨"Odd", 77, 28⟩]
    isochrone := fun _ _ _ => none
    countInPolygon := fun _ _ _ => (0, 0)
    radiusCount := fun _ _ _ _ _ => (3, 4) }

/-- The candidate produced by `envOdd`: composite 47.25 = round2(47.252). -/
def candOdd : ScoredCandidate := ⟨⟨"Odd", 45.42, 28, 77, 3, 4⟩, 50, 50, 47.25⟩

/-- Analyzer environment in which every lookup fails. -/
def envNone : AnalyzerEnv :=
  { exactArea := fun _ => none
    fuzzyArea := fun _ => none
    poiSearch := fun _ => none
    spatialDistribution := fun _ => []
    centroidOf := fun _ => none
    radiusDistribution := fun _ _ _ => []
    delhiAverage := [] }

/-! ## Helper lemmas -/

theorem roundHalfEven_nonneg {q : ℚ} (h : 0 ≤ q) : 0 ≤ roundHalfEven q := by
  have hf : (0 : ℤ) ≤ ⌊q⌋ := Int.floor_nonneg.mpr h
  unfold roundHalfEven
  split
  · exact hf
  · split
    · omega
    · split
      · exact hf
      · omega

theorem roundHalfEven_le_of_le {q : ℚ} {m : ℤ} (h : q ≤ (m : ℚ)) :
    roundHalfEven q ≤ m := by
  have hfm : ⌊q⌋ ≤ m := by
    have := Int.floor_mono h
    simpa using this
  unfold roundHalfEven
  split
  · exact hfm
  · rename_i h1
    push_neg at h1
    split
    · rename_i h2
      -- the fractional part is positive, so `⌊q⌋ < q ≤ m` and `⌊q⌋ + 1 ≤ m`
      have hlt : (⌊q⌋ : ℚ) < q := by linarith
      have : (⌊q⌋ : ℚ) < (m : ℚ) := lt_of_lt_of_le hlt h
      have : ⌊q⌋ < m := by exact_mod_cast this
      omega
    · rename_i h2
      push_neg at h2
      -- exact tie `q = ⌊q⌋ + 1/2`, so `q` is not an integer and `⌊q⌋ < m`
      have htie : 2 * q = 2 * (⌊q⌋ : ℚ) + 1 := le_antisymm h2 h1
      have hlt : (⌊q⌋ : ℚ) < q := by linarith
      have : (⌊q⌋ : ℚ) < (m : ℚ) := lt_of_lt_of_le hlt h
      have hm : ⌊q⌋ < m := by exact_mod_cast this
      split
      · omega
      · -- `⌊q⌋ + 1 ≤ m` needs `q < m`: `q` has fractional part 1/2, `m` is integral
        have hqm : q ≠ (m : ℚ) := by
          intro he
          have : (2 : ℚ) * m = 2 * (⌊q⌋ : ℚ) + 1 := by rw [← he]; exact htie
          have : (2 : ℤ) * m = 2 * ⌊q⌋ + 1 := by exact_mod_cast this
          omega
        have : q < (m : ℚ) := lt_of_le_of_ne h hqm
        have : ⌊q⌋ + 1 ≤ m := by
          have h2q : (2 : ℚ) * ⌊q⌋ + 1 < 2 * m := by
            calc (2 : ℚ) * ⌊q⌋ + 1 = 2 * q := htie.symm
            _ < 2 * m := by linarith
          have : (2 : ℤ) * ⌊q⌋ + 1 < 2 * m := by exact_mod_cast h2q
          omega
        omega

theorem roundTo_nonneg {d : ℕ} {q : ℚ} (h : 0 ≤ q) : 0 ≤ roundTo d q := by
  unfold roundTo
  apply div_nonneg _ (by positivity)
  exact_mod_cast roundHalfEven_nonneg (by positivity)

theorem roundTo_le_hundred {d : ℕ} {q : ℚ} (h : q ≤ 100) : roundTo d q ≤ 100 := by
  unfold roundTo
  rw [div_le_iff₀ (by positivity)]
  have hle : q * 10 ^ d ≤ ((100 * 10 ^ d : ℤ) : ℚ) := by
    push_cast
    have : (0 : ℚ) < 10 ^ d := by positivity
    nlinarith
  have := roundHalfEven_le_of_le hle
  calc (roundHalfEven (q * 10 ^ d) : ℚ) ≤ ((100 * 10 ^ d : ℤ) : ℚ) := by exact_mod_cast this
  _ = 100 * 10 ^ d := by push_cast; ring

theorem mem_insertDesc {key : α → ℚ} {x a : α} {l : List α} :
    a ∈ insertDesc key x l ↔ a ∈ x :: l := by
  induction l with
  | nil => simp [insertDesc]
  | cons y ys ih =>
    simp only [insertDesc]
    split
    · simp
    · simp only [List.mem_cons, ih, List.mem_cons]
      tauto

theorem mem_sortDescBy {key : α → ℚ} {a : α} {l : List α} :
    a ∈ sortDescBy key l ↔ a ∈ l := by
  induction l with
  | nil => simp [sortDescBy]
  | cons x xs ih => simp [sortDescBy, mem_insertDesc, ih]

theorem pairwise_insertDesc {key : α → ℚ} {x : α} {l : List α}
    (h : l.Pairwise (fun a b => key b ≤ key a)) :
    (insertDesc key x l).Pairwise (fun a b => key b ≤ key a) := by
  induction l with
  | nil => simp [insertDesc]
  | cons y ys ih =>
    rcases List.pairwise_cons.mp h with ⟨hy, hys⟩
    simp only [insertDesc]
    split
    · rename_i hle
      refine List.pairwise_cons.mpr ⟨?_, h⟩
      intro b hb
      rcases List.mem_cons.mp hb with rfl | hb
      · exact hle
      · exact le_trans (hy b hb) hle
    · rename_i hgt
      push_neg at hgt
      refine List.pairwise_cons.mpr ⟨?_, ih hys⟩
      intro b hb
      rcases List.mem_cons.mp (mem_insertDesc.mp hb) with rfl | hb
      · exact le_of_lt hgt
      · exact hy b hb

theorem pairwise_sortDescBy (key : α → ℚ) (l : List α) :
    (sortDescBy key l).Pairwise (fun a b => key b ≤ key a) := by
  induction l with
  | nil => simp [sortDescBy]
  | cons x xs ih => exact pairwise_insertDesc ih

/-- Stability, in filter form: the sublist of elements whose key equals any
fixed value `q` is unchanged by the sort. -/
theorem filter_insertDesc (key : α → ℚ) (q : ℚ) (x : α) (l : List α) :
    (insertDesc key x l).filter (fun a => key a = q) =
      (x :: l).filter (fun a => key a = q) := by
  induction l with
  | nil => simp [insertDesc]
  | cons y ys ih =>
    simp only [insertDesc]
    split
    · rfl
    · rename_i hgt
      push_neg at hgt
      by_cases hx : key x = q
      · -- every skipped element has key `> key x = q`, hence is not kept
        have hy : ¬ (key y = q) := by
          intro he
          rw [← hx] at he
          rw [he] at hgt
          exact lt_irrefl _ hgt
        simp only [List.filter_cons]
        rw [ih]
        simp [hx, hy]
      · simp only [List.filter_cons]
        rw [ih]
        simp only [List.filter_cons]
        by_cases hy : key y = q <;> simp [hx, hy]

theorem filter_sortDescBy (key : α → ℚ) (q : ℚ) (l : List α) :
    (sortDescBy key l).filter (fun a => key a = q) =
      l.filter (fun a => key a = q) := by
  induction l with
  | nil => simp [sortDescBy]
  | cons x xs ih =>
    simp only [sortDescBy]
    rw [filter_insertDesc]
    simp only [List.filter_cons]
    rw [ih]

theorem length_insertDesc (key : α → ℚ) (x : α) (l : List α) :
    (insertDesc key x l).length = l.length + 1 := by
  induction l with
  | nil => simp [insertDesc]
  | cons y ys ih =>
    simp only [insertDesc]
    split
    · simp
    · simp [ih]

theorem length_sortDescBy (key : α → ℚ) (l : List α) :
    (sortDescBy key l).length = l.length := by
  induction l with
  | nil => simp [sortDescBy]
  | cons x xs ih => simp [sortDescBy, length_insertDesc, ih]

theorem perm_insertDesc (key : α → ℚ) (x : α) (l : List α) :
    (insertDesc key x l).Perm (x :: l) := by
  induction l with
  | nil => exact List.Perm.refl _
  | cons y ys ih =>
    simp only [insertDesc]
    split
    · exact List.Perm.refl _
    · exact (List.Perm.cons y ih).trans (List.Perm.swap x y ys)

theorem sortDescBy_perm (key : α → ℚ) (l : List α) :
    (sortDescBy key l).Perm l := by
  induction l with
  | nil => exact List.Perm.refl _
  | cons x xs ih =>
    exact (perm_insertDesc key x (sortDescBy key xs)).trans (List.Perm.cons x ih)

/-- The stable insertion sort is one lawful instance of the pandas sort
contract (used to instantiate witnesses). -/
theorem sortDescBy_isPandasSortDesc : IsPandasSortDesc (sortDescBy Prod.snd) :=
  fun l => ⟨sortDescBy_perm Prod.snd l, pairwise_sortDescBy Prod.snd l⟩

theorem foldl_min_le_init (xs : List ℚ) (a : ℚ) : xs.foldl min a ≤ a := by
  induction xs generalizing a with
  | nil => simp
  | cons y ys ih =>
    simp only [List.foldl_cons]
    exact le_trans (ih (min a y)) (min_le_left a y)

theorem foldl_min_le_mem (xs : List ℚ) (a v : ℚ) (h : v ∈ xs) :
    xs.foldl min a ≤ v := by
  induction xs generalizing a with
  | nil => simp at h
  | cons y ys ih =>
    simp only [List.foldl_cons]
    rcases List.mem_cons.mp h with rfl | h
    · exact le_trans (foldl_min_le_init ys (min a v)) (min_le_right a v)
    · exact ih (min a y) h

theorem le_foldl_max_init (xs : List ℚ) (a : ℚ) : a ≤ xs.foldl max a := by
  induction xs generalizing a with
  | nil => simp
  | cons y ys ih =>
    simp only [List.foldl_cons]
    exact le_trans (le_max_left a y) (ih (max a y))

theorem le_foldl_max_mem (xs : List ℚ) (a v : ℚ) (h : v ∈ xs) :
    v ≤ xs.foldl max a := by
  induction xs generalizing a with
  | nil => simp at h
  | cons y ys ih =>
    simp only [List.foldl_cons]
    rcases List.mem_cons.mp h with rfl | h
    · exact le_trans (le_max_right a v) (le_foldl_max_init ys (max a v))
    · exact ih (max a y) h

theorem listMin_le {l : List ℚ} {v : ℚ} (h : v ∈ l) : listMin l ≤ v := by
  cases l with
  | nil => simp at h
  | cons x xs =>
    rcases List.mem_cons.mp h with rfl | h
    · exact foldl_min_le_init xs v
    · exact foldl_min_le_mem xs x v h

theorem le_listMax {l : List ℚ} {v : ℚ} (h : v ∈ l) : v ≤ listMax l := by
  cases l with
  | nil => simp at h
  | cons x xs =>
    rcases List.mem_cons.mp h with rfl | h
    · exact le_foldl_max_init xs v
    · exact le_foldl_max_mem xs x v h

theorem foldl_min_mem (xs : List ℚ) (a : ℚ) : xs.foldl min a ∈ a :: xs := by
  induction xs generalizing a with
  | nil => simp
  | cons y ys ih =>
    simp only [List.foldl_cons]
    rcases List.mem_cons.mp (ih (min a y)) with he | hm
    · rcases min_choice a y with h | h
      · rw [he, h]; exact List.mem_cons_self _ _
      · rw [he, h]; simp
    · simp [hm]

theorem foldl_max_mem (xs : List ℚ) (a : ℚ) : xs.foldl max a ∈ a :: xs := by
  induction xs generalizing a with
  | nil => simp
  | cons y ys ih =>
    simp only [List.foldl_cons]
    rcases List.mem_cons.mp (ih (max a y)) with he | hm
    · rcases max_choice a y with h | h
      · rw [he, h]; exact List.mem_cons_self _ _
      · rw [he, h]; simp
    · simp [hm]

theorem listMin_mem {l : List ℚ} (h : l ≠ []) : listMin l ∈ l := by
  cases l with
  | nil => exact absurd rfl h
  | cons x xs => exact foldl_min_mem xs x

theorem listMax_mem {l : List ℚ} (h : l ≠ []) : listMax l ∈ l := by
  cases l with
  | nil => exact absurd rfl h
  | cons x xs => exact foldl_max_mem xs x

/-- In a constant list the maximum equals the minimum. -/
theorem listMax_eq_listMin_of_const {l : List ℚ}
    (h : ∀ x ∈ l, ∀ y ∈ l, x = y) (hne : l ≠ []) : listMax l = listMin l :=
  h _ (listMax_mem hne) _ (listMin_mem hne)

/-- A normalized score of a value drawn from the value list lies in [0, 100]. -/
theorem normalize_score_bounds {v : ℚ} {l : List ℚ} (inv : Bool) (h : v ∈ l) :
    0 ≤ normalize_score v l inv ∧ normalize_score v l inv ≤ 100 := by
  have hne : l ≠ [] := List.ne_nil_of_mem h
  have h1 : listMin l ≤ v := listMin_le h
  have h2 : v ≤ listMax l := le_listMax h
  unfold normalize_score
  rw [if_neg hne]
  by_cases heq : listMax l = listMin l
  · rw [if_pos heq]; norm_num
  · rw [if_neg heq]
    have hlt : listMin l < listMax l :=
      lt_of_le_of_ne (le_trans h1 h2) (fun he => heq he.symm)
    have hpos : 0 < listMax l - listMin l := by linarith
    cases inv with
    | true =>
      rw [if_pos rfl]
      constructor
      · have hd : 0 ≤ (listMax l - v) / (listMax l - listMin l) :=
          div_nonneg (by linarith) (le_of_lt hpos)
        nlinarith
      · have hd : (listMax l - v) / (listMax l - listMin l) ≤ 1 :=
          (div_le_one hpos).mpr (by linarith)
        nlinarith
    | false =>
      rw [if_neg (by simp)]
      constructor
      · have hd : 0 ≤ (v - listMin l) / (listMax l - listMin l) :=
          div_nonneg (by linarith) (le_of_lt hpos)
        nlinarith
      · have hd : (v - listMin l) / (listMax l - listMin l) ≤ 1 :=
          (div_le_one hpos).mpr (by linarith)
        nlinarith

/-- Every weight vector the engine can select is non-negative and sums to at
most 100. -/
theorem weightsFor_bounds (super_category : String) :
    (∀ c, 0 ≤ weightsFor super_category c) ∧
      (Criterion.all.map (weightsFor super_category)).sum ≤ 100 := by
  rcases hfind : WEIGHTS.find? (fun p => p.1 == super_category) with _ | p
  · have hw : weightsFor super_category = otherMiscWeights := by
      unfold weightsFor; rw [hfind]
    rw [hw]
    constructor
    · intro c; norm_num [otherMiscWeights]
    · norm_num [otherMiscWeights, Criterion.all]
  · have hw : weightsFor super_category = p.2 := by
      unfold weightsFor; rw [hfind]
    rw [hw]
    have hp : p ∈ WEIGHTS := List.mem_of_find?_eq_some hfind
    simp only [WEIGHTS, List.mem_cons] at hp
    rcases hp with rfl | rfl | rfl | rfl | rfl | rfl | rfl | rfl | rfl | rfl | rfl | rfl | rfl | h
    · exact ⟨by intro c; cases c <;> norm_num [accommodationWeights],
        by norm_num [Criterion.all, accommodationWeights]⟩
    · exact ⟨by intro c; cases c <;> norm_num [educationWeights],
        by norm_num [Criterion.all, educationWeights]⟩
    · exact ⟨by intro c; cases c <;> norm_num [entertainmentWeights],
        by norm_num [Criterion.all, entertainmentWeights]⟩
    · exact ⟨by intro c; cases c <;> norm_num [financialWeights],
        by norm_num [Criterion.all, financialWeights]⟩
    · exact ⟨by intro c; cases c <;> norm_num [fitnessWeights],
        by norm_num [Criterion.all, fitnessWeights]⟩
    · exact ⟨by intro c; cases c <;> norm_num [foodWeights],
        by norm_num [Criterion.all, foodWeights]⟩
    · exact ⟨by intro c; cases c <;> norm_num [governmentWeights],
        by norm_num [Criterion.all, governmentWeights]⟩
    · exact ⟨by intro c; cases c <;> norm_num [healthWeights],
        by norm_num [Criterion.all, healthWeights]⟩
    · exact ⟨by intro c; norm_num [otherMiscWeights],
        by norm_num [Criterion.all, otherMiscWeights]⟩
    · exact ⟨by intro c; cases c <;> norm_num [parksWeights],
        by norm_num [Criterion.all, parksWeights]⟩
    · exact ⟨by intro c; cases c <;> norm_num [religiousWeights],
        by norm_num [Criterion.all, religiousWeights]⟩
    · exact ⟨by intro c; cases c <;> norm_num [shoppingWeights],
        by norm_num [Criterion.all, shoppingWeights]⟩
    · exact ⟨by intro c; cases c <;> norm_num [transportWeights],
        by norm_num [Criterion.all, transportWeights]⟩
    · simp at h

/-- The contribution of one criterion is between 0 and its weight. -/
theorem weightedSum_term_bounds (w : Criterion → ℚ) (row : AreaRow)
    (hw0 : ∀ c, 0 ≤ w c) (hraw : ∀ c, optInBounds (row.scores c)) (c : Criterion) :
    0 ≤ (match row.scores c with
          | some v => v * w c / 100
          | none => 0) ∧
      (match row.scores c with
        | some v => v * w c / 100
        | none => 0) ≤ w c := by
  have hb := hraw c
  revert hb
  generalize row.scores c = o
  intro hb
  cases o with
  | none => exact ⟨le_refl 0, hw0 c⟩
  | some v =>
    unfold optInBounds at hb
    constructor
    · exact div_nonneg (mul_nonneg hb.1 (hw0 c)) (by norm_num)
    · rw [div_le_iff₀ (by norm_num : (0:ℚ) < 100)]
      nlinarith [hw0 c, hb.1, hb.2]

/-- The weighted sum of raw values in [0, 100] lies in [0, 100]. -/
theorem weightedSum_bounds (super_category : String) (row : AreaRow)
    (hraw : ∀ c, optInBounds (row.scores c)) :
    0 ≤ weightedSum (weightsFor super_category) row ∧
      weightedSum (weightsFor super_category) row ≤ 100 := by
  obtain ⟨hw0, hwsum⟩ := weightsFor_bounds super_category
  have hterm := weightedSum_term_bounds (weightsFor super_category) row hw0 hraw
  unfold weightedSum
  constructor
  · apply List.sum_nonneg
    intro x hx
    rcases List.mem_map.mp hx with ⟨c, _, rfl⟩
    exact (hterm c).1
  · calc ((Criterion.all.map fun c =>
        match row.scores c with
        | some v => v * weightsFor super_category c / 100
        | none => 0)).sum
        ≤ (Criterion.all.map (weightsFor super_category)).sum := by
          apply List.sum_le_sum
          intro c _
          exact (hterm c).2
    _ ≤ 100 := hwsum

theorem roundTo_fifty : roundTo 2 50 = 50 := by
  norm_num [roundTo, roundHalfEven]

/-- Inversion of the success branch of `find_best_locations`. -/
theorem find_best_locations_ok {P : Type} {env : RecEnv P} {cat : String} {r : ℚ}
    {recs all10 : List ScoredCandidate}
    (h : find_best_locations env cat r = .ok recs all10) :
    all10 = sortDescBy ScoredCandidate.composite_score (scoredResults env cat r) ∧
      recs = all10.take 3 := by
  unfold find_best_locations at h
  split at h
  · exact absurd h (by simp)
  · split at h
    · exact absurd h (by simp)
    · split at h
      · exact absurd h (by simp)
      · have := RecResult.ok.inj h
        exact ⟨this.2.symm, by rw [← this.1, ← this.2]⟩

/-- Every element of `calculate_area_scores` is a rounded weighted sum of a
dataset row, for any library sort that permutes its input. -/
theorem mem_calculate_area_scores
    {pandas_sort : List (String × ℚ) → List (String × ℚ)}
    {rows : List AreaRow} {cat : String} {p : String × ℚ}
    (hperm : ∀ l, (pandas_sort l).Perm l)
    (hp : p ∈ calculate_area_scores pandas_sort (some rows) cat) :
    ∃ row ∈ rows, p = (row.name, roundTo 2 (weightedSum (weightsFor cat) row)) := by
  simp only [calculate_area_scores] at hp
  have h1 := List.take_subset 10 _ hp
  have h2 := (hperm _).subset h1
  rcases List.mem_map.mp h2 with ⟨row, hrow, hpe⟩
  exact ⟨row, hrow, hpe.symm⟩

/-- Unpack membership in the pre-normalization candidate list. -/
theorem mem_surviving_elim {P : Type} {env : RecEnv P} {cat : String} {r : ℚ}
    {x : RawCandidate} (hx : x ∈ surviving env cat r) :
    ∃ p ∈ calculate_area_scores env.pandasSort env.areas_df cat, ∃ c : CentroidRow,
      lookupCentroid (get_area_centroids env
          ((calculate_area_scores env.pandasSort env.areas_df cat).map Prod.fst)) p.1 = some c ∧
      x = ⟨p.1, p.2, c.lat, c.lon,
        (match env.isochrone c.lat c.lon r with
         | some poly => env.countInPolygon poly cat (complementaryFor cat)
         | none => env.radiusCount c.lat c.lon r cat (complementaryFor cat)).1,
        (match env.isochrone c.lat c.lon r with
         | some poly => env.countInPolygon poly cat (complementaryFor cat)
         | none => env.radiusCount c.lat c.lon r cat (complementaryFor cat)).2⟩ := by
  simp only [surviving] at hx
  rcases List.mem_filterMap.mp hx with ⟨p, hp, hf⟩
  rcases hlc : lookupCentroid (get_area_centroids env
      ((calculate_area_scores env.pandasSort env.areas_df cat).map Prod.fst)) p.1 with _ | c
  · rw [hlc] at hf
    simp at hf
  · rw [hlc] at hf
    simp only [Option.some.injEq] at hf
    exact ⟨p, hp, c, hlc, hf.symm⟩

/-- A successful centroid lookup returns a row of the queried list whose name
is the looked-up name. -/
theorem lookupCentroid_mem {cs : List CentroidRow} {name : String}
    {c : CentroidRow} (h : lookupCentroid cs name = some c) :
    c ∈ cs ∧ c.name = name := by
  unfold lookupCentroid at h
  have h1 := List.find?_some h
  have h2 := List.mem_of_find?_eq_some h
  exact ⟨List.mem_reverse.mp h2, by simpa using h1⟩

theorem get_area_centroids_subset {P : Type} (env : RecEnv P)
    (names : List String) {c : CentroidRow}
    (h : c ∈ get_area_centroids env names) : c ∈ env.centroidRows := by
  unfold get_area_centroids at h
  exact List.mem_of_mem_filter h

/-- Unpack membership in the scored candidate list. -/
theorem mem_scoredResults {P : Type} {env : RecEnv P} {cat : String} {r : ℚ}
    {c : ScoredCandidate} (hc : c ∈ scoredResults env cat r) :
    ∃ x ∈ surviving env cat r,
      c = scoreCandidate
            ((surviving env cat r).map (fun y => (y.competitors : ℚ)))
            ((surviving env cat r).map (fun y => (y.complementary : ℚ))) x := by
  simp only [scoredResults] at hc
  rcases List.mem_map.mp hc with ⟨x, hx, hce⟩
  exact ⟨x, hx, hce.symm⟩

theorem scoreCandidate_area (a b : List ℚ) (x : RawCandidate) :
    (scoreCandidate a b x).area = x.area := rfl

theorem scoreCandidate_area_score (a b : List ℚ) (x : RawCandidate) :
    (scoreCandidate a b x).area_score = x.area_score := rfl

theorem scoreCandidate_competitors (a b : List ℚ) (x : RawCandidate) :
    (scoreCandidate a b x).competitors = x.competitors := rfl

theorem scoreCandidate_complementary (a b : List ℚ) (x : RawCandidate) :
    (scoreCandidate a b x).complementary = x.complementary := rfl

theorem scoreCandidate_opportunity (a b : List ℚ) (x : RawCandidate) :
    (scoreCandidate a b x).opportunity_score =
      roundTo 2 (normalize_score x.competitors a true) := rfl

theorem scoreCandidate_ecosystem (a b : List ℚ) (x : RawCandidate) :
    (scoreCandidate a b x).ecosystem_score =
      roundTo 2 (normalize_score x.complementary b false) := rfl

theorem scoreCandidate_composite (a b : List ℚ) (x : RawCandidate) :
    (scoreCandidate a b x).composite_score =
      roundTo 2 (x.area_score * 0.60 +
        roundTo 2 (normalize_score x.competitors a true) * 0.20 +
        roundTo 2 (normalize_score x.complementary b false) * 0.20) := rfl

/-! ## Evaluation of the concrete witness inputs -/

theorem weightsFor_food : weightsFor "Food & Beverages" = foodWeights := by rfl

theorem weightsFor_other : weightsFor "Other / Misc" = otherMiscWeights := by rfl

theorem weightsFor_accom :
    weightsFor "Accommodation & Lodging" = accommodationWeights := by rfl

theorem rowA_sum : weightedSum foodWeights rowA = 49 := by
  norm_num [weightedSum, rowA, Criterion.all, foodWeights]

theorem rowBeta_sum : weightedSum foodWeights rowBeta = 39.2 := by
  norm_num [weightedSum, rowBeta, Criterion.all, foodWeights]

theorem rowZeta_sum : weightedSum otherMiscWeights rowZeta = 45.45 := by
  norm_num [weightedSum, rowZeta, Criterion.all, otherMiscWeights]

theorem rowAlpha_sum : weightedSum otherMiscWeights rowAlpha = 45.45 := by
  norm_num [weightedSum, rowAlpha, Criterion.all, otherMiscWeights]

theorem rowTiny_sum : weightedSum accommodationWeights rowTiny = 3 / 2000 := by
  norm_num [weightedSum, rowTiny, Criterion.all, accommodationWeights]

theorem envW_calc :
    calculate_area_scores (sortDescBy Prod.snd) (some [rowA]) "Food & Beverages" = [("A", 49)] := by
  have h : roundTo 2 (weightedSum (weightsFor "Food & Beverages") rowA) = 49 := by
    rw [weightsFor_food, rowA_sum]; norm_num [roundTo, roundHalfEven]
  simp only [calculate_area_scores, List.map]
  rw [h]
  simp [rowA, sortDescBy, insertDesc]

theorem envW_surviving : surviving envW "Food & Beverages" 1 =
    [⟨"A", 49, 28, 77, 3, 4⟩] := by
  simp only [surviving, envW, envW_calc]
  simp [get_area_centroids, lookupCentroid, List.find?, List.filter]

theorem envW_sr : scoredResults envW "Food & Beverages" 1 = [candW] := by
  unfold scoredResults
  rw [envW_surviving]
  simp only [List.map, scoreCandidate, candW]
  have h1 : normalize_score ((3 : ℕ) : ℚ) [((3 : ℕ) : ℚ)] true = 50 := by
    simp [normalize_score, listMax, listMin]
  have h2 : normalize_score ((4 : ℕ) : ℚ) [((4 : ℕ) : ℚ)] false = 50 := by
    simp [normalize_score, listMax, listMin]
  simp only [h1, h2]
  norm_num [roundTo, roundHalfEven]

theorem envW_eval :
    find_best_locations envW "Food & Beverages" 1 = .ok [candW] [candW] := by
  have hvalid : (¬ VALID_SUPER_CATEGORIES.contains "Food & Beverages" = true) = False := by
    simp [VALID_SUPER_CATEGORIES, WEIGHTS]
  unfold find_best_locations
  rw [envW_sr]
  simp only [envW, envW_calc, hvalid]
  simp [sortDescBy, insertDesc]

theorem envTie_calc :
    calculate_area_scores (sortDescBy Prod.snd) (some [rowZeta, rowAlpha]) "Other / Misc" =
      [("Zeta", 45.45), ("Alpha", 45.45)] := by
  have h : roundTo 2 (weightedSum (weightsFor "Other / Misc") rowZeta) = 45.45 := by
    rw [weightsFor_other, rowZeta_sum]; norm_num [roundTo, roundHalfEven]
  have h2 : roundTo 2 (weightedSum (weightsFor "Other / Misc") rowAlpha) = 45.45 := by
    rw [weightsFor_other, rowAlpha_sum]; norm_num [roundTo, roundHalfEven]
  simp only [calculate_area_scores, List.map]
  rw [h, h2]
  simp [rowZeta, rowAlpha, sortDescBy, insertDesc]

theorem envTie_surviving : surviving envTie "Other / Misc" 1 =
    [⟨"Zeta", 45.45, 28, 77, 2, 2⟩, ⟨"Alpha", 45.45, 28, 77, 2, 2⟩] := by
  simp only [surviving, envTie, envTie_calc]
  simp [get_area_centroids, lookupCentroid, List.find?, List.filter]

theorem envTie_sr : scoredResults envTie "Other / Misc" 1 = [cndZeta, cndAlpha] := by
  unfold scoredResults
  rw [envTie_surviving]
  simp only [List.map, scoreCandidate, cndZeta, cndAlpha]
  have h1 : normalize_score ((2 : ℕ) : ℚ) [((2 : ℕ) : ℚ), ((2 : ℕ) : ℚ)] true = 50 := by
    simp [normalize_score, listMax, listMin]
  have h2 : normalize_score ((2 : ℕ) : ℚ) [((2 : ℕ) : ℚ), ((2 : ℕ) : ℚ)] false = 50 := by
    simp [normalize_score, listMax, listMin]
  simp only [h1, h2]
  norm_num [roundTo, roundHalfEven]

theorem envTie_eval : find_best_locations envTie "Other / Misc" 1 =
    .ok [cndZeta, cndAlpha] [cndZeta, cndAlpha] := by
  have hvalid : (¬ VALID_SUPER_CATEGORIES.contains "Other / Misc" = true) = False := by
    simp [VALID_SUPER_CATEGORIES, WEIGHTS]
  unfold find_best_locations
  rw [envTie_sr]
  simp only [envTie, envTie_calc, hvalid]
  have hins : sortDescBy ScoredCandidate.composite_score [cndZeta, cndAlpha] =
      [cndZeta, cndAlpha] := by
    simp [sortDescBy, insertDesc, cndZeta, cndAlpha]
  rw [hins]
  simp

theorem envSkip_calc :
    calculate_area_scores (sortDescBy Prod.snd) (some [rowA, rowBeta]) "Food & Beverages" =
      [("A", 49), ("Beta", 39.2)] := by
  have h : roundTo 2 (weightedSum (weightsFor "Food & Beverages") rowA) = 49 := by
    rw [weightsFor_food, rowA_sum]; norm_num [roundTo, roundHalfEven]
  have h2 : roundTo 2 (weightedSum (weightsFor "Food & Beverages") rowBeta) = 39.2 := by
    rw [weightsFor_food, rowBeta_sum]; norm_num [roundTo, roundHalfEven]
  simp only [calculate_area_scores, List.map]
  rw [h, h2]
  simp [rowA, rowBeta, sortDescBy, insertDesc]
  norm_num

theorem envSkip_surviving : surviving envSkip "Food & Beverages" 1 =
    [⟨"A", 49, 28, 77, 3, 4⟩] := by
  simp only [surviving, envSkip, envSkip_calc]
  simp [get_area_centroids, lookupCentroid, List.find?, List.filter]

theorem envSkip_sr : scoredResults envSkip "Food & Beverages" 1 = [candW] := by
  unfold scoredResults
  rw [envSkip_surviving]
  simp only [List.map, scoreCandidate, candW]
  have h1 : normalize_score ((3 : ℕ) : ℚ) [((3 : ℕ) : ℚ)] true = 50 := by
    simp [normalize_score, listMax, listMin]
  have h2 : normalize_score ((4 : ℕ) : ℚ) [((4 : ℕ) : ℚ)] false = 50 := by
    simp [normalize_score, listMax, listMin]
  simp only [h1, h2]
  norm_num [roundTo, roundHalfEven]

theorem envSkip_eval : find_best_locations envSkip "Food & Beverages" 1 =
    .ok [candW] [candW] := by
  have hvalid : (¬ VALID_SUPER_CATEGORIES.contains "Food & Beverages" = true) = False := by
    simp [VALID_SUPER_CATEGORIES, WEIGHTS]
  unfold find_best_locations
  rw [envSkip_sr]
  simp only [envSkip, envSkip_calc, hvalid]
  simp [sortDescBy, insertDesc]

theorem rowOdd_sum : weightedSum foodWeights rowOdd = 45.423 := by
  norm_num [weightedSum, rowOdd, Criterion.all, foodWeights]

theorem envOdd_calc :
    calculate_area_scores (sortDescBy Prod.snd) (some [rowOdd]) "Food & Beverages" =
      [("Odd", 45.42)] := by
  have h : roundTo 2 (weightedSum (weightsFor "Food & Beverages") rowOdd) = 45.42 := by
    rw [weightsFor_food, rowOdd_sum]; norm_num [roundTo, roundHalfEven]
  simp only [calculate_area_scores, List.map]
  rw [h]
  simp [rowOdd, sortDescBy, insertDesc]

theorem envOdd_surviving : surviving envOdd "Food & Beverages" 1 =
    [⟨"Odd", 45.42, 28, 77, 3, 4⟩] := by
  simp only [surviving, envOdd, envOdd_calc]
  simp [get_area_centroids, lookupCentroid, List.find?, List.filter]

theorem envOdd_sr : scoredResults envOdd "Food & Beverages" 1 = [candOdd] := by
  unfold scoredResults
  rw [envOdd_surviving]
  simp only [List.map, scoreCandidate, candOdd]
  have h1 : normalize_score ((3 : ℕ) : ℚ) [((3 : ℕ) : ℚ)] true = 50 := by
    simp [normalize_score, listMax, listMin]
  have h2 : normalize_score ((4 : ℕ) : ℚ) [((4 : ℕ) : ℚ)] false = 50 := by
    simp [normalize_score, listMax, listMin]
  simp only [h1, h2]
  norm_num [roundTo, roundHalfEven]

theorem envOdd_eval :
    find_best_locations envOdd "Food & Beverages" 1 = .ok [candOdd] [candOdd] := by
  have hvalid : (¬ VALID_SUPER_CATEGORIES.contains "Food & Beverages" = true) = False := by
    simp [VALID_SUPER_CATEGORIES, WEIGHTS]
  unfold find_best_locations
  rw [envOdd_sr]
  simp only [envOdd, envOdd_calc, hvalid]
  simp [sortDescBy, insertDesc]

theorem rowTiny_calc :
    calculate_area_scores (sortDescBy Prod.snd) (some [rowTiny]) "Accommodation & Lodging" = [("A", 0)] := by
  have h : roundTo 2 (weightedSum (weightsFor "Accommodation & Lodging") rowTiny) = 0 := by
    rw [weightsFor_accom, rowTiny_sum]; norm_num [roundTo, roundHalfEven]
  simp only [calculate_area_scores, List.map]
  rw [h]
  simp [rowTiny, sortDescBy, insertDesc]

theorem gapEntryFor_ce : gapEntryFor "X" 1 3 = ⟨"X", 1, 3, 667 / 10, "underserved"⟩ := by
  unfold gapEntryFor
  norm_num [roundTo, roundHalfEven, Int.even_iff]

theorem gap_ce_eval : analyze_gaps [("X", 1)] [("X", 3)] =
    [⟨"X", 1, 3, 667 / 10, "underserved"⟩] := by
  have hl : lookupCount [("X", 1)] "X" = 1 := by rfl
  simp only [analyze_gaps, List.filterMap, hl]
  norm_num [gapEntryFor_ce, sortDescBy, insertDesc]

theorem gapEntryFor_100 : gapEntryFor "Food & Beverages" 0 10 =
    ⟨"Food & Beverages", 0, 10, 100, "underserved"⟩ := by
  unfold gapEntryFor
  norm_num [roundTo, roundHalfEven]

theorem normalize_score_const_fifty (value : ℚ) (l : List ℚ) (inv : Bool)
    (hne : l ≠ []) (heq : listMax l = listMin l) :
    normalize_score value l inv = 50 := by
  unfold normalize_score
  rw [if_neg hne, if_pos heq]

theorem gapEntryFor_gap_score (catg : String) (count : ℕ) (avg : ℚ) :
    (gapEntryFor catg count avg).gap_score =
      roundTo 1 (max 0 (100 - (count : ℚ) / avg * 100)) := rfl

theorem gapEntryFor_status (catg : String) (count : ℕ) (avg : ℚ) :
    (gapEntryFor catg count avg).status =
      (if (count : ℚ) / avg < 0.5 then "underserved"
       else if (count : ℚ) / avg < 1.0 then "moderate" else "saturated") := rfl

/-! ## The claims -/

/-- C9: the `cached` decorator is read-through: on a key hit the stored result
is returned with the cache unchanged and without recomputation (the outcome
does not depend on the wrapped function); on a miss the wrapped function is
computed and its result stored under the key; and when the wrapped function
raises on a miss, the same error propagates unmodified and nothing is stored. -/
theorem C9_cache_read_through {κ β ε : Type} [DecidableEq κ]
    (cache : List (κ × β)) (key : κ) :
    (∀ v : β, cacheLookup cache key = some v →
      ∀ f g : Unit → Except ε β,
        cachedCall cache key f = (.ok v, cache) ∧
        cachedCall cache key f = cachedCall cache key g) ∧
    (∀ (f : Unit → Except ε β) (v : β),
      cacheLookup cache key = none → f () = .ok v →
      cachedCall cache key f = (.ok v, (key, v) :: cache) ∧
      cacheLookup ((key, v) :: cache) key = some v) ∧
    (∀ (f : Unit → Except ε β) (e : ε),
      cacheLookup cache key = none → f () = .error e →
      cachedCall cache key f = (.error e, cache)) := by
  refine ⟨?_, ?_, ?_⟩
  · intro v hv f g
    unfold cachedCall
    rw [hv]
    exact ⟨rfl, rfl⟩
  · intro f v hl hf
    unfold cachedCall
    rw [hl, hf]
    refine ⟨rfl, ?_⟩
    unfold cacheLookup
    simp [List.find?]
  · intro f e hl hf
    unfold cachedCall
    rw [hl, hf]

theorem C9_cache_read_through_witness :
    (cacheLookup [((1 : ℕ), (10 : ℕ))] 1 = some 10) ∧
    (cachedCall [((1 : ℕ), (10 : ℕ))] 1 (fun _ => (.ok 99 : Except String ℕ)) =
      (.ok 10, [(1, 10)])) ∧
    (cacheLookup ([] : List (ℕ × ℕ)) 2 = none) ∧
    (cachedCall ([] : List (ℕ × ℕ)) 2 (fun _ => (.error "boom" : Except String ℕ)) =
      (.error "boom", [])) := by
  have hv : cacheLookup [((1 : ℕ), (10 : ℕ))] 1 = some 10 := by
    simp [cacheLookup, List.find?]
  have hn : cacheLookup ([] : List (ℕ × ℕ)) 2 = none := by
    simp [cacheLookup]
  exact ⟨hv,
    (((C9_cache_read_through [((1 : ℕ), (10 : ℕ))] 1).1 10 hv)
      (fun _ => .ok 99) (fun _ => .ok 99)).1,
    hn,
    (C9_cache_read_through ([] : List (ℕ × ℕ)) 2).2.2
      (fun _ => .error "boom") "boom" hn rfl⟩

/-- C6: a category string outside the fixed enumeration never raises and is
never silently scored as unknown: the engine selects the designated
"Other / Misc" fallback vector, whose weights are uniformly 9.09, and the
area scoring of the unknown category coincides with that of "Other / Misc". -/
theorem C6_unknown_category_fallback (cat : String)
    (h : cat ∉ VALID_SUPER_CATEGORIES) :
    weightsFor cat = otherMiscWeights ∧
    (∀ c, weightsFor cat c = 909 / 100) ∧
    (∀ (ps : List (String × ℚ) → List (String × ℚ)) df,
      calculate_area_scores ps df cat = calculate_area_scores ps df "Other / Misc") := by
  have hfind : WEIGHTS.find? (fun p => p.1 == cat) = none := by
    rw [List.find?_eq_none]
    intro p hp hbe
    exact h (List.mem_map.mpr ⟨p, hp, by simpa using hbe⟩)
  have hw : weightsFor cat = otherMiscWeights := by
    unfold weightsFor; rw [hfind]
  refine ⟨hw, fun c => by rw [hw]; rfl, fun ps df => ?_⟩
  cases df with
  | none => rfl
  | some rows =>
    simp only [calculate_area_scores]
    rw [hw, weightsFor_other]

theorem C6_unknown_category_fallback_witness :
    ("Coworking" ∉ VALID_SUPER_CATEGORIES) ∧
    weightsFor "Coworking" = otherMiscWeights ∧
    (∀ c, weightsFor "Coworking" c = 909 / 100) := by
  have hnm : "Coworking" ∉ VALID_SUPER_CATEGORIES := by
    simp [VALID_SUPER_CATEGORIES, WEIGHTS]
  have h := C6_unknown_category_fallback "Coworking" hnm
  exact ⟨hnm, h.1, h.2.1⟩

/-- C7: `analyze_area` returns the not-found error exactly when all three
lookup strategies (exact area name, substring match, POI-name fallback) fail;
when the name does resolve but the catchment holds zero POIs, it returns the
distinct empty-result error; and a success payload always carries a non-empty
distribution. -/
theorem C7_analyze_area_errors (env : AnalyzerEnv) (name : String) :
    (analyze_area env name = .notFound name ↔
      env.exactArea name = none ∧ env.fuzzyArea name = none ∧
        env.poiSearch name = none) ∧
    (∀ actual, find_area_by_name env name = some actual →
      get_category_distribution env actual = [] →
      analyze_area env name = .emptyResult actual) ∧
    (∀ poi : PoiLocation, find_area_by_name env name = none →
      env.poiSearch name = some poi →
      env.radiusDistribution poi.lat poi.lon 1.0 = [] →
      analyze_area env name = .emptyResult poi.name) ∧
    (∀ payload, analyze_area env name = .ok payload →
      payload.distribution ≠ []) := by
  refine ⟨⟨?_, ?_⟩, ?_, ?_, ?_⟩
  · intro h
    rcases hex : env.exactArea name with _ | n
    · rcases hfz : env.fuzzyArea name with _ | n2
      · rcases hpoi : env.poiSearch name with _ | poi
        · exact ⟨rfl, rfl, rfl⟩
        · exfalso
          have hfn : find_area_by_name env name = none := by
            unfold find_area_by_name
            rw [hex]
            exact hfz
          unfold analyze_area at h
          simp only [hfn, hpoi] at h
          unfold analyzeAreaWith at h
          split at h <;> simp at h
      · exfalso
        have hfn : find_area_by_name env name = some n2 := by
          unfold find_area_by_name
          rw [hex]
          exact hfz
        unfold analyze_area at h
        simp only [hfn] at h
        unfold analyzeAreaWith at h
        split at h <;> simp at h
    · exfalso
      have hfn : find_area_by_name env name = some n := by
        unfold find_area_by_name
        rw [hex]
      unfold analyze_area at h
      simp only [hfn] at h
      unfold analyzeAreaWith at h
      split at h <;> simp at h
  · rintro ⟨h1, h2, h3⟩
    have hfn : find_area_by_name env name = none := by
      unfold find_area_by_name
      rw [h1]
      exact h2
    unfold analyze_area
    simp only [hfn, h3]
  · intro actual hfa hdist
    unfold analyze_area
    simp only [hfa]
    unfold analyzeAreaWith
    rw [if_pos hdist]
  · intro poi hfa hpoi hdist
    unfold analyze_area
    simp only [hfa, hpoi]
    unfold analyzeAreaWith
    rw [if_pos hdist]
  · intro payload h
    rcases hfa : find_area_by_name env name with _ | actual
    · rcases hpoi : env.poiSearch name with _ | poi
      · unfold analyze_area at h
        simp only [hfa, hpoi] at h
        exact absurd h (by simp)
      · unfold analyze_area at h
        simp only [hfa, hpoi] at h
        unfold analyzeAreaWith at h
        split at h
        · simp at h
        · rename_i hne
          have hinj := AnalyzeResult.ok.inj h
          rw [← hinj]
          simpa using hne
    · unfold analyze_area at h
      simp only [hfa] at h
      unfold analyzeAreaWith at h
      split at h
      · simp at h
      · rename_i hne
        have hinj := AnalyzeResult.ok.inj h
        rw [← hinj]
        simpa using hne

theorem C7_analyze_area_errors_witness :
    (envNone.exactArea "Nowhere" = none ∧ envNone.fuzzyArea "Nowhere" = none ∧
      envNone.poiSearch "Nowhere" = none) ∧
    analyze_area envNone "Nowhere" = .notFound "Nowhere" := by
  exact ⟨⟨rfl, rfl, rfl⟩,
    (C7_analyze_area_errors envNone "Nowhere").1.mpr ⟨rfl, rfl, rfl⟩⟩

/-- C5 (counterexample): at distribution 1 and city average 3 the emitted
gap_score is 66.7 — the value of `max(0, 100 − 100·1/3) = 200/3` rounded to
one decimal — so it is not exactly `max(0, 100 − 100·area_count/avg_count)`
as the claim states. -/
theorem C5_counterexample :
    analyze_gaps [("X", 1)] [("X", 3)] = [⟨"X", 1, 3, 667 / 10, "underserved"⟩] ∧
    (667 / 10 : ℚ) ≠ max 0 (100 - (1 : ℚ) / 3 * 100) := by
  refine ⟨gap_ce_eval, ?_⟩
  have h : max (0 : ℚ) (100 - (1 : ℚ) / 3 * 100) = 200 / 3 := by
    rw [max_eq_right (by norm_num)]
    norm_num
  rw [h]
  norm_num

/-- C5 (amended): for every category with positive city-wide average, the
emitted entry carries gap_score `round(max(0, 100 − 100·area_count/avg_count), 1)`
— the spec formula rounded to one decimal — and the status label is
"underserved" when the ratio is below 0.5, "moderate" below 1.0, and
"saturated" otherwise; in particular area_count 0 with average 10 yields
exactly 100.0 and "underserved". -/
theorem C5_gap_scores (dist : List (String × ℕ)) (avgs : List (String × ℚ))
    (catg : String) (avg : ℚ) (hmem : (catg, avg) ∈ avgs) (hpos : 0 < avg) :
    gapEntryFor catg (lookupCount dist catg) avg ∈ analyze_gaps dist avgs ∧
    (gapEntryFor catg (lookupCount dist catg) avg).gap_score =
      roundTo 1 (max 0 (100 - (lookupCount dist catg : ℚ) / avg * 100)) ∧
    ((gapEntryFor catg (lookupCount dist catg) avg).status =
      if (lookupCount dist catg : ℚ) / avg < 0.5 then "underserved"
      else if (lookupCount dist catg : ℚ) / avg < 1.0 then "moderate"
      else "saturated") := by
  refine ⟨?_, rfl, rfl⟩
  simp only [analyze_gaps]
  apply mem_sortDescBy.mpr
  exact List.mem_filterMap.mpr ⟨(catg, avg), hmem, by rw [if_pos hpos]⟩

theorem C5_gap_scores_witness :
    (("Food & Beverages", (10 : ℚ)) ∈ [("Food & Beverages", (10 : ℚ))]) ∧
    ((0 : ℚ) < 10) ∧
    gapEntryFor "Food & Beverages" (lookupCount [] "Food & Beverages") 10 ∈
      analyze_gaps [] [("Food & Beverages", 10)] ∧
    (gapEntryFor "Food & Beverages" 0 10).gap_score = 100 ∧
    (gapEntryFor "Food & Beverages" 0 10).status = "underserved" := by
  have h := C5_gap_scores [] [("Food & Beverages", 10)] "Food & Beverages" 10
    (by simp) (by norm_num)
  refine ⟨by simp, by norm_num, h.1, ?_, ?_⟩
  · rw [gapEntryFor_100]
  · rw [gapEntryFor_100]

/-- C4 (counterexample): a dataset row whose weighted sum is 3/2000 = 0.0015
is assigned the score 0, not the weighted sum itself — the assigned score is
the weighted sum rounded to two decimals. -/
theorem C4_counterexample :
    calculate_area_scores (sortDescBy Prod.snd) (some [rowTiny]) "Accommodation & Lodging" = [("A", 0)] ∧
    weightedSum (weightsFor "Accommodation & Lodging") rowTiny = 3 / 2000 ∧
    (0 : ℚ) ≠ 3 / 2000 := by
  refine ⟨rowTiny_calc, ?_, by norm_num⟩
  rw [weightsFor_accom]
  exact rowTiny_sum

/-- C4 (amended): for every category, non-empty area reference set, and pandas
sort satisfying its documented contract (a descending permutation; ties
unspecified — the default sort kind is not stable), the Area Score Calculator
assigns each area the score `round(Σ raw·weight/100, 2)` — the weighted sum
rounded to two decimals — and outputs, truncated to the top 10, the areas
sorted descending by that score; the relative order of areas with equal
scores is whatever the library sort produced, not guaranteed to be the
original dataset order. -/
theorem C4_area_scores (pandas_sort : List (String × ℚ) → List (String × ℚ))
    (rows : List AreaRow) (cat : String) (hne : rows ≠ [])
    (hsort : IsPandasSortDesc pandas_sort) :
    calculate_area_scores pandas_sort (some rows) cat =
      (pandas_sort (rows.map (fun row =>
        (row.name, roundTo 2 (weightedSum (weightsFor cat) row))))).take 10 ∧
    (calculate_area_scores pandas_sort (some rows) cat).Pairwise
      (fun a b => b.2 ≤ a.2) ∧
    (calculate_area_scores pandas_sort (some rows) cat).length =
      min 10 rows.length ∧
    (∀ p ∈ calculate_area_scores pandas_sort (some rows) cat,
      ∃ row ∈ rows, p = (row.name, roundTo 2 (weightedSum (weightsFor cat) row))) := by
  refine ⟨rfl, ?_, ?_, ?_⟩
  · exact ((hsort _).2).sublist (List.take_sublist 10 _)
  · show ((pandas_sort (rows.map _)).take 10).length = min 10 rows.length
    rw [List.length_take, (hsort _).1.length_eq, List.length_map]
  · intro p hp
    exact mem_calculate_area_scores (fun l => (hsort l).1) hp

theorem C4_area_scores_witness :
    (([rowA] : List AreaRow) ≠ []) ∧
    IsPandasSortDesc (sortDescBy Prod.snd) ∧
    calculate_area_scores (sortDescBy Prod.snd) (some [rowA]) "Food & Beverages" =
      (sortDescBy Prod.snd ([rowA].map (fun row =>
        (row.name, roundTo 2 (weightedSum (weightsFor "Food & Beverages") row))))).take 10 ∧
    (calculate_area_scores (sortDescBy Prod.snd) (some [rowA])
      "Food & Beverages").length = min 10 ([rowA] : List AreaRow).length ∧
    (∀ p ∈ calculate_area_scores (sortDescBy Prod.snd) (some [rowA]) "Food & Beverages",
      ∃ row ∈ [rowA],
        p = (row.name, roundTo 2 (weightedSum (weightsFor "Food & Beverages") row))) := by
  have h := C4_area_scores (sortDescBy Prod.snd) [rowA] "Food & Beverages"
    (by simp) sortDescBy_isPandasSortDesc
  exact ⟨by simp, sortDescBy_isPandasSortDesc, h.1, h.2.2.1, h.2.2.2⟩

/-- C1 (counterexample): two refutations of the claim as stated.  First, with
two candidates that tie on composite_score and area_score but sit in reverse
alphabetical dataset order, the ranked output keeps the pre-sort order
("Zeta" before "Alpha"), so ties are NOT broken alphabetically by area name.
Second, at `envOdd` the emitted composite_score (47.25) differs from the
exact blend 0.60·area + 0.20·opportunity + 0.20·ecosystem (47.252): the
stored value is that blend rounded to two decimals. -/
theorem C1_counterexample :
    (find_best_locations envTie "Other / Misc" 1 =
        .ok [cndZeta, cndAlpha] [cndZeta, cndAlpha] ∧
      cndZeta.composite_score = cndAlpha.composite_score ∧
      cndZeta.area_score = cndAlpha.area_score ∧
      ¬ specTieOrdered [cndZeta, cndAlpha]) ∧
    (find_best_locations envOdd "Food & Beverages" 1 = .ok [candOdd] [candOdd] ∧
      candOdd.composite_score ≠ candOdd.area_score * 0.60 +
        candOdd.opportunity_score * 0.20 + candOdd.ecosystem_score * 0.20) := by
  refine ⟨⟨envTie_eval, by norm_num [cndZeta, cndAlpha],
    by norm_num [cndZeta, cndAlpha], ?_⟩, envOdd_eval, ?_⟩
  · have halpha : alphaLeB "Zeta".data "Alpha".data = false := by decide
    simp [specTieOrdered, cndZeta, cndAlpha, alphaLe, halpha]
  · norm_num [candOdd]

/-- C1 (amended): every successful ranking lists the candidates in descending
order of composite_score, where composite_score is
round(0.60·area_score + 0.20·opportunity_score + 0.20·ecosystem_score, 2);
candidates of equal composite_score keep the relative order they had in the
candidate list entering the final sort (Python list.sort is stable) — not
alphabetical order by area name — and the recommendations field is the
first 3 of that order. -/
theorem C1_ranking_order {P : Type} (env : RecEnv P) (cat : String) (r : ℚ)
    (recs all10 : List ScoredCandidate)
    (hok : find_best_locations env cat r = .ok recs all10) :
    all10.Pairwise (fun a b => b.composite_score ≤ a.composite_score) ∧
    recs = all10.take 3 ∧
    (∀ c ∈ all10, c.composite_score = roundTo 2 (c.area_score * 0.60 +
      c.opportunity_score * 0.20 + c.ecosystem_score * 0.20)) ∧
    (∀ q : ℚ, all10.filter (fun c => c.composite_score = q) =
      (scoredResults env cat r).filter (fun c => c.composite_score = q)) := by
  obtain ⟨hall, htake⟩ := find_best_locations_ok hok
  subst hall
  refine ⟨pairwise_sortDescBy _ _, htake, ?_, fun q => filter_sortDescBy _ q _⟩
  intro c hc
  obtain ⟨x, hx, rfl⟩ := mem_scoredResults (mem_sortDescBy.mp hc)
  rfl

theorem C1_ranking_order_witness :
    find_best_locations envTie "Other / Misc" 1 =
      .ok [cndZeta, cndAlpha] [cndZeta, cndAlpha] ∧
    ([cndZeta, cndAlpha] : List ScoredCandidate).Pairwise
      (fun a b => b.composite_score ≤ a.composite_score) ∧
    [cndZeta, cndAlpha] = ([cndZeta, cndAlpha] : List ScoredCandidate).take 3 ∧
    (∀ c ∈ ([cndZeta, cndAlpha] : List ScoredCandidate),
      c.composite_score = roundTo 2 (c.area_score * 0.60 +
        c.opportunity_score * 0.20 + c.ecosystem_score * 0.20)) ∧
    (∀ q : ℚ,
      ([cndZeta, cndAlpha] : List ScoredCandidate).filter
        (fun c => c.composite_score = q) =
      (scoredResults envTie "Other / Misc" 1).filter
        (fun c => c.composite_score = q)) := by
  have h := C1_ranking_order envTie "Other / Misc" 1 [cndZeta, cndAlpha]
    [cndZeta, cndAlpha] envTie_eval
  exact ⟨envTie_eval, h.1, h.2.1, h.2.2.1, h.2.2.2⟩

/-- C2: min–max normalization over a candidate set with no variance
(max == min, in particular a constant value list) yields exactly 50.0 for
every candidate; consequently, when all surviving candidates have identical
competitor counts every ranked candidate has opportunity_score exactly 50.0,
and identically for complementary counts and ecosystem_score. -/
theorem C2_degenerate_normalization :
    (∀ (value : ℚ) (all_values : List ℚ) (inverse : Bool),
      all_values ≠ [] → listMax all_values = listMin all_values →
      normalize_score value all_values inverse = 50) ∧
    (∀ (P : Type) (env : RecEnv P) (cat : String) (r : ℚ)
      (recs all10 : List ScoredCandidate),
      find_best_locations env cat r = .ok recs all10 →
      (∀ x ∈ surviving env cat r, ∀ y ∈ surviving env cat r,
        x.competitors = y.competitors) →
      ∀ c ∈ all10, c.opportunity_score = 50) ∧
    (∀ (P : Type) (env : RecEnv P) (cat : String) (r : ℚ)
      (recs all10 : List ScoredCandidate),
      find_best_locations env cat r = .ok recs all10 →
      (∀ x ∈ surviving env cat r, ∀ y ∈ surviving env cat r,
        x.complementary = y.complementary) →
      ∀ c ∈ all10, c.ecosystem_score = 50) := by
  refine ⟨normalize_score_const_fifty, ?_, ?_⟩
  · intro P env cat r recs all10 hok hconst c hc
    obtain ⟨hall, _⟩ := find_best_locations_ok hok
    rw [hall] at hc
    obtain ⟨x, hx, rfl⟩ := mem_scoredResults (mem_sortDescBy.mp hc)
    rw [scoreCandidate_opportunity]
    have hne : (surviving env cat r).map (fun y => (y.competitors : ℚ)) ≠ [] := by
      intro he
      rw [List.map_eq_nil_iff] at he
      rw [he] at hx
      simp at hx
    have hcn : ∀ a ∈ (surviving env cat r).map (fun y => (y.competitors : ℚ)),
        ∀ b ∈ (surviving env cat r).map (fun y => (y.competitors : ℚ)), a = b := by
      intro a ha b hb
      obtain ⟨xa, hxa, rfl⟩ := List.mem_map.mp ha
      obtain ⟨xb, hxb, rfl⟩ := List.mem_map.mp hb
      exact_mod_cast hconst xa hxa xb hxb
    rw [normalize_score_const_fifty _ _ _ hne (listMax_eq_listMin_of_const hcn hne)]
    exact roundTo_fifty
  · intro P env cat r recs all10 hok hconst c hc
    obtain ⟨hall, _⟩ := find_best_locations_ok hok
    rw [hall] at hc
    obtain ⟨x, hx, rfl⟩ := mem_scoredResults (mem_sortDescBy.mp hc)
    rw [scoreCandidate_ecosystem]
    have hne : (surviving env cat r).map (fun y => (y.complementary : ℚ)) ≠ [] := by
      intro he
      rw [List.map_eq_nil_iff] at he
      rw [he] at hx
      simp at hx
    have hcn : ∀ a ∈ (surviving env cat r).map (fun y => (y.complementary : ℚ)),
        ∀ b ∈ (surviving env cat r).map (fun y => (y.complementary : ℚ)), a = b := by
      intro a ha b hb
      obtain ⟨xa, hxa, rfl⟩ := List.mem_map.mp ha
      obtain ⟨xb, hxb, rfl⟩ := List.mem_map.mp hb
      exact_mod_cast hconst xa hxa xb hxb
    rw [normalize_score_const_fifty _ _ _ hne (listMax_eq_listMin_of_const hcn hne)]
    exact roundTo_fifty

theorem C2_degenerate_normalization_witness :
    (([3, 3] : List ℚ) ≠ []) ∧
    listMax [3, 3] = listMin [3, 3] ∧
    normalize_score 7 [3, 3] true = 50 ∧
    find_best_locations envW "Food & Beverages" 1 = .ok [candW] [candW] ∧
    (∀ x ∈ surviving envW "Food & Beverages" 1,
      ∀ y ∈ surviving envW "Food & Beverages" 1,
        x.competitors = y.competitors) ∧
    (∀ c ∈ [candW], c.opportunity_score = 50) := by
  have hconst : ∀ x ∈ surviving envW "Food & Beverages" 1,
      ∀ y ∈ surviving envW "Food & Beverages" 1, x.competitors = y.competitors := by
    rw [envW_surviving]
    intro x hx y hy
    simp at hx hy
    rw [hx, hy]
  have hmm : listMax [3, 3] = listMin [(3 : ℚ), 3] := by
    simp [listMax, listMin]
  exact ⟨by simp, hmm,
    C2_degenerate_normalization.1 7 [3, 3] true (by simp) hmm,
    envW_eval, hconst,
    C2_degenerate_normalization.2.1 Unit envW "Food & Beverages" 1 [candW] [candW]
      envW_eval hconst⟩

/-- C3: under the precondition that every present raw criterion value lies in
[0, 100], every score the engine produces is in [0, 100]: the per-category
weight vectors are non-negative and sum to at most 100, every ranked
candidate has area_score, opportunity_score, ecosystem_score and
composite_score in [0, 100], and every gap-analysis entry has gap_score in
[0, 100]. -/
theorem C3_score_ranges {P : Type} (env : RecEnv P) (rows : List AreaRow)
    (cat : String) (r : ℚ) (recs all10 : List ScoredCandidate)
    (hdf : env.areas_df = some rows)
    (hsort : IsPandasSortDesc env.pandasSort)
    (hraw : ∀ row ∈ rows, ∀ c, optInBounds (row.scores c))
    (hok : find_best_locations env cat r = .ok recs all10) :
    (∀ sc : String, (∀ c, 0 ≤ weightsFor sc c) ∧
      (Criterion.all.map (weightsFor sc)).sum ≤ 100) ∧
    (∀ cand ∈ all10,
      (0 ≤ cand.area_score ∧ cand.area_score ≤ 100) ∧
      (0 ≤ cand.opportunity_score ∧ cand.opportunity_score ≤ 100) ∧
      (0 ≤ cand.ecosystem_score ∧ cand.ecosystem_score ≤ 100) ∧
      (0 ≤ cand.composite_score ∧ cand.composite_score ≤ 100)) ∧
    (∀ (dist : List (String × ℕ)) (avgs : List (String × ℚ)),
      ∀ ent ∈ analyze_gaps dist avgs, 0 ≤ ent.gap_score ∧ ent.gap_score ≤ 100) := by
  refine ⟨weightsFor_bounds, ?_, ?_⟩
  · intro cand hc
    obtain ⟨hall, _⟩ := find_best_locations_ok hok
    rw [hall] at hc
    obtain ⟨x, hx, rfl⟩ := mem_scoredResults (mem_sortDescBy.mp hc)
    obtain ⟨p, hp, crow, hlc, hxe⟩ := mem_surviving_elim hx
    rw [hdf] at hp
    obtain ⟨row, hrow, hpe⟩ :=
      mem_calculate_area_scores (fun l => (hsort l).1) hp
    have hxas : x.area_score = roundTo 2 (weightedSum (weightsFor cat) row) := by
      rw [hxe, hpe]
    have hws := weightedSum_bounds cat row (hraw row hrow)
    have hab : 0 ≤ x.area_score ∧ x.area_score ≤ 100 := by
      rw [hxas]
      exact ⟨roundTo_nonneg hws.1, roundTo_le_hundred hws.2⟩
    have hmemc : ((x.competitors : ℚ)) ∈
        (surviving env cat r).map (fun y => (y.competitors : ℚ)) :=
      List.mem_map.mpr ⟨x, hx, rfl⟩
    have hob := normalize_score_bounds true hmemc
    have hmeme : ((x.complementary : ℚ)) ∈
        (surviving env cat r).map (fun y => (y.complementary : ℚ)) :=
      List.mem_map.mpr ⟨x, hx, rfl⟩
    have heb := normalize_score_bounds false hmeme
    have hopp : 0 ≤ roundTo 2 (normalize_score x.competitors
          ((surviving env cat r).map (fun y => (y.competitors : ℚ))) true) ∧
        roundTo 2 (normalize_score x.competitors
          ((surviving env cat r).map (fun y => (y.competitors : ℚ))) true) ≤ 100 :=
      ⟨roundTo_nonneg hob.1, roundTo_le_hundred hob.2⟩
    have heco : 0 ≤ roundTo 2 (normalize_score x.complementary
          ((surviving env cat r).map (fun y => (y.complementary : ℚ))) false) ∧
        roundTo 2 (normalize_score x.complementary
          ((surviving env cat r).map (fun y => (y.complementary : ℚ))) false) ≤ 100 :=
      ⟨roundTo_nonneg heb.1, roundTo_le_hundred heb.2⟩
    refine ⟨?_, ?_, ?_, ?_⟩
    · rw [scoreCandidate_area_score]
      exact hab
    · rw [scoreCandidate_opportunity]
      exact hopp
    · rw [scoreCandidate_ecosystem]
      exact heco
    · rw [scoreCandidate_composite]
      constructor
      · apply roundTo_nonneg
        nlinarith [hab.1, hopp.1, heco.1]
      · apply roundTo_le_hundred
        nlinarith [hab.2, hopp.2, heco.2]
  · intro dist avgs ent hent
    simp only [analyze_gaps] at hent
    obtain ⟨pp, hpp, hif⟩ := List.mem_filterMap.mp (mem_sortDescBy.mp hent)
    by_cases hpos : 0 < pp.2
    · rw [if_pos hpos] at hif
      obtain rfl := Option.some.inj hif
      rw [gapEntryFor_gap_score]
      have hfrac : 0 ≤ (lookupCount dist pp.1 : ℚ) / pp.2 :=
        div_nonneg (Nat.cast_nonneg _) hpos.le
      constructor
      · exact roundTo_nonneg (le_max_left 0 _)
      · apply roundTo_le_hundred
        apply max_le (by norm_num)
        nlinarith
    · rw [if_neg hpos] at hif
      simp at hif

theorem C3_score_ranges_witness :
    (envW.areas_df = some [rowA]) ∧
    IsPandasSortDesc envW.pandasSort ∧
    (∀ row ∈ [rowA], ∀ c, optInBounds (row.scores c)) ∧
    (find_best_locations envW "Food & Beverages" 1 = .ok [candW] [candW]) ∧
    (∀ cand ∈ [candW],
      (0 ≤ cand.area_score ∧ cand.area_score ≤ 100) ∧
      (0 ≤ cand.opportunity_score ∧ cand.opportunity_score ≤ 100) ∧
      (0 ≤ cand.ecosystem_score ∧ cand.ecosystem_score ≤ 100) ∧
      (0 ≤ cand.composite_score ∧ cand.composite_score ≤ 100)) := by
  have hraw : ∀ row ∈ [rowA], ∀ c, optInBounds (row.scores c) := by
    intro row hrow c
    simp at hrow
    rw [hrow]
    show optInBounds (some 50)
    unfold optInBounds
    norm_num
  exact ⟨rfl, sortDescBy_isPandasSortDesc, hraw, envW_eval,
    (C3_score_ranges envW [rowA] "Food & Beverages" 1 [candW] [candW]
      rfl sortDescBy_isPandasSortDesc hraw envW_eval).2.1⟩

/-- C8: when the isochrone provider fails for every request, no error
propagates: every surviving candidate is counted through the radius fallback
of `_simple_radius_count`, whose bounding box (lat ± radius/111,
lon ± radius/(111·|cos lat|)) always contains the centroid for non-negative
radius, and the ranking still completes with a success result. -/
theorem C8_provider_fallback {P : Type} (env : RecEnv P) (cat : String)
    (r lat lon cosAbsLat : ℚ) (hr : 0 ≤ r) (hcos : 0 ≤ cosAbsLat)
    (hfail : ∀ la lo rr, env.isochrone la lo rr = (none : Option P))
    (hvalid : cat ∈ VALID_SUPER_CATEGORIES)
    (hsome : surviving env cat r ≠ []) :
    ((simple_radius_bounds lat lon r cosAbsLat).1 ≤ lat ∧
      lat ≤ (simple_radius_bounds lat lon r cosAbsLat).2.1 ∧
      (simple_radius_bounds lat lon r cosAbsLat).2.2.1 ≤ lon ∧
      lon ≤ (simple_radius_bounds lat lon r cosAbsLat).2.2.2) ∧
    (∀ x ∈ surviving env cat r,
      (x.competitors, x.complementary) =
        env.radiusCount x.lat x.lon r cat (complementaryFor cat)) ∧
    (∃ recs all10, find_best_locations env cat r = .ok recs all10) := by
  refine ⟨?_, ?_, ?_⟩
  · have h1 : 0 ≤ r / 111 := by positivity
    have h2 : 0 ≤ r / (111 * cosAbsLat) := div_nonneg hr (by positivity)
    simp only [simple_radius_bounds]
    exact ⟨by linarith, by linarith, by linarith, by linarith⟩
  · intro x hx
    obtain ⟨p, hp, crow, hlc, hxe⟩ := mem_surviving_elim hx
    subst hxe
    simp only [hfail]
  · have htop : ¬ calculate_area_scores env.pandasSort env.areas_df cat = [] := by
      intro he
      apply hsome
      simp [surviving, he]
    have hres : ¬ scoredResults env cat r = [] := by
      simp only [scoredResults]
      intro he
      rw [List.map_eq_nil_iff] at he
      exact hsome he
    have hc : VALID_SUPER_CATEGORIES.contains cat = true :=
      List.elem_eq_true_of_mem hvalid
    unfold find_best_locations
    rw [if_neg (not_not_intro hc), if_neg htop, if_neg hres]
    exact ⟨_, _, rfl⟩

theorem C8_provider_fallback_witness :
    ((0 : ℚ) ≤ 1) ∧ ((0 : ℚ) ≤ 22 / 25) ∧
    (∀ la lo rr, envW.isochrone la lo rr = (none : Option Unit)) ∧
    ("Food & Beverages" ∈ VALID_SUPER_CATEGORIES) ∧
    (surviving envW "Food & Beverages" 1 ≠ []) ∧
    ((simple_radius_bounds 28.6 77.2 1 (22 / 25)).1 ≤ 28.6 ∧
      (28.6 : ℚ) ≤ (simple_radius_bounds 28.6 77.2 1 (22 / 25)).2.1 ∧
      (simple_radius_bounds 28.6 77.2 1 (22 / 25)).2.2.1 ≤ 77.2 ∧
      (77.2 : ℚ) ≤ (simple_radius_bounds 28.6 77.2 1 (22 / 25)).2.2.2) ∧
    (∃ recs all10,
      find_best_locations envW "Food & Beverages" 1 = .ok recs all10) := by
  have hfail : ∀ la lo rr, envW.isochrone la lo rr = (none : Option Unit) :=
    fun _ _ _ => rfl
  have hvalid : "Food & Beverages" ∈ VALID_SUPER_CATEGORIES := by
    simp [VALID_SUPER_CATEGORIES, WEIGHTS]
  have hsome : surviving envW "Food & Beverages" 1 ≠ [] := by
    rw [envW_surviving]
    simp
  have h := C8_provider_fallback envW "Food & Beverages" 1 28.6 77.2 (22 / 25)
    (by norm_num) (by norm_num) hfail hvalid hsome
  exact ⟨by norm_num, by norm_num, hfail, hvalid, hsome, h.1, h.2.2⟩

/-- C10: a top-10 candidate area with no centroid row is silently skipped: it
never appears in `all_top_10` or in the recommendations, the output length is
the number of surviving candidates (at most the number of top-10 areas, so
possibly fewer than 10), and both min–max normalizations are taken over only
the surviving candidates. -/
theorem C10_missing_centroid {P : Type} (env : RecEnv P) (cat : String) (r : ℚ)
    (recs all10 : List ScoredCandidate) (a : String) (s : ℚ)
    (hok : find_best_locations env cat r = .ok recs all10)
    (hmem : (a, s) ∈ calculate_area_scores env.pandasSort env.areas_df cat)
    (hnoc : ∀ row ∈ env.centroidRows, row.name ≠ a) :
    (∀ c ∈ all10, c.area ≠ a) ∧
    (∀ c ∈ recs, c.area ≠ a) ∧
    all10.length = (surviving env cat r).length ∧
    (surviving env cat r).length ≤ (calculate_area_scores env.pandasSort env.areas_df cat).length ∧
    (∀ c ∈ all10,
      c.opportunity_score = roundTo 2 (normalize_score c.competitors
        ((surviving env cat r).map (fun x => (x.competitors : ℚ))) true) ∧
      c.ecosystem_score = roundTo 2 (normalize_score c.complementary
        ((surviving env cat r).map (fun x => (x.complementary : ℚ))) false)) := by
  obtain ⟨hall, htake⟩ := find_best_locations_ok hok
  have hnotin : ∀ c ∈ all10, c.area ≠ a := by
    intro c hc hca
    rw [hall] at hc
    obtain ⟨x, hx, rfl⟩ := mem_scoredResults (mem_sortDescBy.mp hc)
    rw [scoreCandidate_area] at hca
    obtain ⟨p, hp, crow, hlc, hxe⟩ := mem_surviving_elim hx
    have hxa : x.area = p.1 := by rw [hxe]
    obtain ⟨hcm, hcn⟩ := lookupCentroid_mem hlc
    exact hnoc crow (get_area_centroids_subset env _ hcm) (by rw [hcn, ← hxa, hca])
  refine ⟨hnotin, ?_, ?_, ?_, ?_⟩
  · intro c hc
    rw [htake] at hc
    exact hnotin c (List.take_subset _ _ hc)
  · rw [hall, length_sortDescBy]
    simp [scoredResults]
  · simp only [surviving]
    exact List.length_filterMap_le _ _
  · intro c hc
    rw [hall] at hc
    obtain ⟨x, hx, rfl⟩ := mem_scoredResults (mem_sortDescBy.mp hc)
    constructor
    · rw [scoreCandidate_opportunity, scoreCandidate_competitors]
    · rw [scoreCandidate_ecosystem, scoreCandidate_complementary]

theorem C10_missing_centroid_witness :
    (find_best_locations envSkip "Food & Beverages" 1 = .ok [candW] [candW]) ∧
    (("Beta", (39.2 : ℚ)) ∈ calculate_area_scores envSkip.pandasSort envSkip.areas_df "Food & Beverages") ∧
    (∀ row ∈ envSkip.centroidRows, row.name ≠ "Beta") ∧
    (∀ c ∈ [candW], c.area ≠ "Beta") ∧
    ([candW] : List ScoredCandidate).length <
      (calculate_area_scores envSkip.pandasSort envSkip.areas_df "Food & Beverages").length := by
  have hmem : ("Beta", (39.2 : ℚ)) ∈
      calculate_area_scores envSkip.pandasSort envSkip.areas_df "Food & Beverages" := by
    show _ ∈ calculate_area_scores (sortDescBy Prod.snd) (some [rowA, rowBeta]) "Food & Beverages"
    rw [envSkip_calc]
    simp
  have hnoc : ∀ row ∈ envSkip.centroidRows, row.name ≠ "Beta" := by
    intro row hrow
    simp [envSkip] at hrow
    rw [hrow]
    simp
  have h := C10_missing_centroid envSkip "Food & Beverages" 1 [candW] [candW]
    "Beta" 39.2 envSkip_eval hmem hnoc
  refine ⟨envSkip_eval, hmem, hnoc, h.1, ?_⟩
  show _ < (calculate_area_scores (sortDescBy Prod.snd) (some [rowA, rowBeta]) "Food & Beverages").length
  rw [envSkip_calc]
  simp

end Atlas
